import Mathlib

/-!
# Verification of the UTXO sweeper planner

A shallow embedding of the `utxo_sweeper` Go module: the Bech32/Bech32m
address codec, the transaction/PSBT binary layer, and the planner
(coin selection, fee adjustment, change allocation), together with
theorems settling the specification claims.

Modelling conventions:
* Go strings are modelled as `List Nat` of their byte values.  All strings
  the code manipulates successfully are ASCII; for non-ASCII inputs both the
  Go code and this model reject (possibly with different error labels),
  which is the only fact the claims need.
* Go `int64`/`int` are modelled as `Int` (no claim exercises 64-bit
  overflow); Go integer division (truncation toward zero) is `Int.tdiv`.
* Go `float64` dust arithmetic (`dustFromUSD`) is modelled over `ℚ` with an
  exact ceiling; the claims under study are insensitive to the rounding of
  the USD-derived dust value.
* Go maps (`chainDepth`, the in-memory KV store) are association lists with
  update-in-place semantics; JSON marshalling of stored values is modelled
  by storing the value itself (marshalling is injective on these types).
* `sort.Slice` (unstable, ascending by value) is modelled by a stable
  insertion sort; any ascending order agrees on everything the claims use.
-/

/-! ## Core planner data types (src/unnamed/part_001) -/

/-- `UTXO` from the source: an unspent output known to the sweeper. -/
structure UTXO where
  TxID : List Nat
  Vout : Nat
  ValueSats : Int
  Address : List Nat
  Confirmed : Bool
deriving DecidableEq

/-- `TxOutput` from the source: a requested payment or change output. -/
structure TxOutput where
  Address : List Nat
  ValueSats : Int
deriving DecidableEq

/-- `WeightedAddr` from the source: an address with a basis-point weight. -/
structure WeightedAddr where
  Address : List Nat
  WeightBP : Int
deriving DecidableEq

/-! ## Pure planner helpers (src/unnamed/part_001, lines 696-777) -/

/-- `max64` from the source. -/
def max64 (a b : Int) : Int := if a > b then a else b

/-- `estimateTxVBytes` from the source: `10 + nIn*58 + nOut*31`. -/
def estimateTxVBytes (nIn nOut : Int) : Int := 10 + nIn * 58 + nOut * 31

/-- `dustFromUSD` from the source, with the `float64` computation carried
out exactly over `ℚ`: `ceil((minUSD / price) * 1e8)`, and `0` when either
argument is non-positive. -/
def dustFromUSD (minUSD price : ℚ) : Int :=
  if minUSD ≤ 0 ∨ price ≤ 0 then 0
  else ⌈minUSD / price * 100000000⌉

/-- The body of `splitEven`'s output construction: `parts` copies of
`chunk`, with the first `rem` entries incremented by one (`rem < parts` in
every reachable call, matching the source's bounded loop). -/
def splitChunks (chunk : Int) (parts : Nat) (rem : Int) : List Int :=
  (List.range parts).map (fun i => if (i : Int) < rem then chunk + 1 else chunk)

/-- `splitEven` from the source: split `value` into roughly equal parts of
at least `minChunk`, dropping non-positive chunks. -/
def splitEven (value : Int) (parts : Int) (minChunk : Int) : List Int :=
  if parts ≤ 1 ∨ value ≤ 0 then [value]
  else
    let chunk := value.tdiv parts
    let pc : Int × Int :=
      if chunk < minChunk then
        let p := value.tdiv minChunk
        let p := if p < 1 then 1 else p
        (p, value.tdiv p)
      else (parts, chunk)
    let rem := value - pc.2 * pc.1
    (splitChunks pc.2 pc.1.toNat rem).filter (fun v => v > 0)

/-- The indexed loop of `buildWeightedOutputs`: `share_i = (total * w_i) / sum`
(truncating division), the entry at index `last` instead takes `total - acc`,
and an entry is emitted (and accumulated) only when its share is `≥ minChunk`. -/
def buildWeightedGo (total sum minChunk : Int) (last : Nat) :
    Nat → Int → List WeightedAddr → List TxOutput
  | _, _, [] => []
  | i, acc, w :: rest =>
    let share0 := (total * w.WeightBP).tdiv sum
    let share := if i = last then total - acc else share0
    if share ≥ minChunk then
      { Address := w.Address, ValueSats := share } ::
        buildWeightedGo total sum minChunk last (i + 1) (acc + share) rest
    else
      buildWeightedGo total sum minChunk last (i + 1) acc rest

/-- `buildWeightedOutputs` from the source. -/
def buildWeightedOutputs (total : Int) (ws : List WeightedAddr) (minChunk : Int) :
    List TxOutput :=
  if ws.length = 0 ∨ total ≤ 0 then []
  else
    let sum := (ws.map WeightedAddr.WeightBP).sum
    if sum ≤ 0 then []
    else buildWeightedGo total sum minChunk (ws.length - 1) 0 0 ws

/-- Total value carried by a list of outputs. -/
def outputsTotal (outs : List TxOutput) : Int := (outs.map TxOutput.ValueSats).sum

/-! ## Networks and addresses (src/unnamed/part_003) -/

/-- `Network` from the source. -/
inductive Network
  | BitcoinMainnet
  | BitcoinTestnet
  | LitecoinMainnet
  | LitecoinTestnet
deriving DecidableEq

/-- `Asset` from the source. -/
inductive Asset
  | BTC
  | LTC
deriving DecidableEq

/-- `AddressType` from the source. -/
inductive AddressType
  | P2WPKH
  | P2TR
deriving DecidableEq

/-- `NetworkConfig` from the source (HRPs as byte lists; the legacy version
bytes are stored but unused by the core, as in the source). -/
structure NetworkConfig where
  network : Network
  asset : Asset
  bech32HRP : List Nat
  bech32mHRP : List Nat
  p2pkhVersionByte : Nat
  p2shVersionByte : Nat
deriving DecidableEq

/-- `networkConfigs` from the source: the Go map keyed by all four supported
networks, as a total function. -/
def networkConfigs : Network → NetworkConfig
  | .BitcoinMainnet => ⟨.BitcoinMainnet, .BTC, [98, 99], [98, 99], 0x00, 0x05⟩
  | .BitcoinTestnet => ⟨.BitcoinTestnet, .BTC, [116, 98], [116, 98], 0x6f, 0xc4⟩
  | .LitecoinMainnet => ⟨.LitecoinMainnet, .LTC, [108, 116, 99], [108, 116, 99], 0x30, 0x32⟩
  | .LitecoinTestnet =>
      ⟨.LitecoinTestnet, .LTC, [116, 108, 116, 99], [116, 108, 116, 99], 0x6f, 0xc4⟩

/-- `getAssetFromNetwork` from src/unnamed/part_001. -/
def getAssetFromNetwork : Network → Asset
  | .BitcoinMainnet => .BTC
  | .BitcoinTestnet => .BTC
  | .LitecoinMainnet => .LTC
  | .LitecoinTestnet => .LTC

/-! ## Bech32/Bech32m codec (src/unnamed/part_003) -/

/-- The byte values of the Bech32 charset string
`qpzry9x8gf2tvdw0s3jn54khce6mua7l`. -/
def charset : List Nat :=
  [113, 112, 122, 114, 121, 57, 120, 56, 103, 102, 50, 116, 118, 100, 119, 48,
   115, 51, 106, 110, 53, 52, 107, 104, 99, 101, 54, 109, 117, 97, 55, 108]

/-- The `charsetMap` lookup built by the source's `init`: byte value of a
charset character back to its index (the characters are pairwise distinct, so
the map equals a first-index search). -/
def charsetMap (b : Nat) : Option Nat := charset.findIdx? (fun c => c == b)

/-- One step of `bech32Polymod` (BIP-173), with the source's loop over the
five fixed generator coefficients unrolled. -/
def bech32PolymodStep (chk v : Nat) : Nat :=
  let b := chk >>> 25
  let c0 := ((chk &&& 0x1ffffff) <<< 5) ^^^ v
  let c1 := if (b >>> 0) &&& 1 = 1 then c0 ^^^ 0x3b6a57b2 else c0
  let c2 := if (b >>> 1) &&& 1 = 1 then c1 ^^^ 0x26508e6d else c1
  let c3 := if (b >>> 2) &&& 1 = 1 then c2 ^^^ 0x1ea119fa else c2
  let c4 := if (b >>> 3) &&& 1 = 1 then c3 ^^^ 0x3d4233dd else c3
  if (b >>> 4) &&& 1 = 1 then c4 ^^^ 0x2a1462b3 else c4

/-- `bech32Polymod` from the source: fold the step over the values, starting
from `chk = 1`. -/
def bech32Polymod (values : List Nat) : Nat := values.foldl bech32PolymodStep 1

/-- `bech32ExpandHRP` from the source:
`[hrp_high...] ++ [0] ++ [hrp_low...]`. -/
def bech32ExpandHRP (hrp : List Nat) : List Nat :=
  hrp.map (fun c => c >>> 5) ++ [0] ++ hrp.map (fun c => c &&& 31)

/-- `bech32VerifyChecksum` from the source. -/
def bech32VerifyChecksum (hrp : List Nat) (data : List Nat) (constant : Nat) : Bool :=
  bech32Polymod (bech32ExpandHRP hrp ++ data) == constant

/-- `bech32CreateChecksum` from the source. -/
def bech32CreateChecksum (hrp : List Nat) (data : List Nat) (constant : Nat) : List Nat :=
  let values := bech32ExpandHRP hrp ++ data
  let polymod := bech32Polymod (values ++ [0, 0, 0, 0, 0, 0]) ^^^ constant
  (List.range 6).map (fun i => (polymod >>> (5 * (5 - i))) &&& 31)

/-- `Bech32Encode` from the source.  Go's `charset[v]` panics for `v ≥ 32`;
every value passed is 5 bits, modelled by `getD _ 0`. -/
def Bech32Encode (hrp : List Nat) (data : List Nat) : List Nat :=
  let constant := if data.length > 0 ∧ data.headD 0 ≠ 0 then 0x2bc830a3 else 1
  let combined := data ++ bech32CreateChecksum hrp data constant
  hrp ++ [49] ++ combined.map (fun v => charset.getD v 0)

/-- `toLower` from the source (byte-wise on ASCII; see the header note). -/
def toLowerGo (s : List Nat) : List Nat :=
  s.map (fun c => if 65 ≤ c ∧ c ≤ 90 then c + 32 else c)

/-- The source's separator search: index of the first `'1'` byte, `-1` when
absent (Go initializes `pos := -1`). -/
def sepPos (low : List Nat) : Int :=
  match low.findIdx? (fun c => c == 49) with
  | none => -1
  | some i => (i : Int)

/-- `Bech32Decode` from the source (src/unnamed/part_003 lines 174-255).
The `ver < 0` arm of the witness-version test is vacuous over `Nat`, exactly
as it is vacuous in Go over charset-map values. -/
def Bech32Decode (bech : List Nat) : Except String (List Nat × List Nat) :=
  if bech.length < 8 ∨ bech.length > 90 then .error "invalid bech32 string length"
  else
  let hasLower := bech.any (fun c => decide (97 ≤ c ∧ c ≤ 122))
  let hasUpper := bech.any (fun c => decide (65 ≤ c ∧ c ≤ 90))
  if hasLower ∧ hasUpper then .error "mixed case in bech32 string"
  else
  let low := toLowerGo bech
  let pos : Int := sepPos low
  if pos < 1 ∨ pos > (low.length : Int) - 7 then .error "invalid separator position"
  else
  let hrp := low.take pos.toNat
  if hrp.length = 0 then .error "empty HRP"
  else if hrp.any (fun c => decide (c < 33 ∨ c > 126)) then .error "invalid HRP character"
  else
  let data := low.drop (pos.toNat + 1)
  if data.any (fun c => (charsetMap c).isNone) then .error "invalid character in data"
  else
  let dataInt := data.map (fun c => (charsetMap c).getD 0)
  if dataInt.length < 7 then .error "invalid data length"
  else
  let ver := dataInt.headD 0
  if ver > 31 then .error "invalid witness version value"
  else
  let constant := if ver = 0 then 1 else 0x2bc830a3
  if bech32VerifyChecksum hrp dataInt constant = false then .error "invalid checksum"
  else .ok (hrp, dataInt.take (dataInt.length - 6))

/-! ## Bit-group repacking (src/unnamed/part_003) -/

/-- The source's inner `for bits >= toBits` emission loop: pop `toBits`-bit
groups (with mask `2^toBits - 1`) off the accumulator until fewer than
`toBits` bits remain; returns the groups and the remaining bit count.  The
`0 < toBits` guard only serves termination; the source instantiates
`toBits` at 5 and 8. -/
def drainGroups (toBits acc bits : Nat) : List Nat × Nat :=
  if h : 0 < toBits ∧ toBits ≤ bits then
    let bits2 := bits - toBits
    let g := (acc >>> bits2) &&& (2 ^ toBits - 1)
    let gb := drainGroups toBits acc bits2
    (g :: gb.1, gb.2)
  else ([], bits)
termination_by bits
decreasing_by omega

/-- The per-byte recursion of `convert8to5`: push 8 bits, pop 5-bit groups,
pad the final partial group with zero bits.  The source's accumulator is
never masked; only its low `bits + 8 ≤ 12` bits are ever read, so the Go
`int` overflow for long inputs is unobservable. -/
def convert8to5Go : Nat → Nat → List Nat → List Nat
  | acc, bits, [] => if bits > 0 then [(acc <<< (5 - bits)) &&& 31] else []
  | acc, bits, b :: rest =>
      let acc2 := (acc <<< 8) ||| b
      let gb := drainGroups 5 acc2 (bits + 8)
      gb.1 ++ convert8to5Go acc2 gb.2 rest

/-- `convert8to5` from the source.  Its Go error return is never taken
(a byte cannot exceed 8 bits), so the result is a plain list. -/
def convert8to5 (data : List Nat) : List Nat := convert8to5Go 0 0 data

/-- The value-processing recursion of `convertBits` with the `pad` policy
applied at the end of the walk; `v < 0` is vacuous over `Nat`. -/
def convertBitsGo (fromBits toBits maxv maxAcc : Nat) (pad : Bool) :
    Nat → Nat → List Nat → Except String (List Nat)
  | acc, bits, [] =>
      if pad then
        if bits > 0 then .ok [(acc <<< (toBits - bits)) &&& maxv] else .ok []
      else if bits ≥ fromBits ∨ ((acc <<< (toBits - bits)) &&& maxv) ≠ 0 then
        .error "invalid padding"
      else .ok []
  | acc, bits, v :: rest =>
      if v >>> fromBits ≠ 0 then .error "invalid value"
      else
        let acc2 := ((acc <<< fromBits) ||| v) &&& maxAcc
        let gb := drainGroups toBits acc2 (bits + fromBits)
        match convertBitsGo fromBits toBits maxv maxAcc pad acc2 gb.2 rest with
        | .error e => .error e
        | .ok tail => .ok (gb.1 ++ tail)

/-- `convertBits` from the source. -/
def convertBits (data : List Nat) (fromBits toBits : Nat) (pad : Bool) :
    Except String (List Nat) :=
  convertBitsGo fromBits toBits (2 ^ toBits - 1) (2 ^ (fromBits + toBits - 1) - 1)
    pad 0 0 data

/-! ## Address construction and parsing (src/unnamed/part_003) -/

/-- `Address` from the source. -/
structure Address where
  addrType : AddressType
  network : Network
  data : List Nat
deriving DecidableEq

/-- `CreateP2WPKH` from the source.  The Go `networkConfigs[network]` lookup
always succeeds (all four networks are keys), so the `unsupported network`
arm is unreachable and the config is read directly. -/
def CreateP2WPKH (pubKeyHash : List Nat) (network : Network) :
    Except String (List Nat) :=
  if pubKeyHash.length ≠ 20 then .error "invalid pubkey hash length"
  else
    let config := networkConfigs network
    let prog5 := convert8to5 pubKeyHash
    .ok (Bech32Encode config.bech32HRP (0 :: prog5))

/-- `CreateP2TR` from the source (see `CreateP2WPKH` on the config lookup). -/
def CreateP2TR (taprootOutputKey : List Nat) (network : Network) :
    Except String (List Nat) :=
  if taprootOutputKey.length ≠ 32 then .error "invalid taproot output key length"
  else
    let config := networkConfigs network
    let prog5 := convert8to5 taprootOutputKey
    .ok (Bech32Encode config.bech32mHRP (1 :: prog5))

/-- The iteration order of the four-network Go map in `DecodeAddress` is
unspecified, but the four HRPs are pairwise distinct, so the first match is
the unique match; modelled as a search in declaration order. -/
def lookupNetworkByHRP (hrp : List Nat) : Option Network :=
  [Network.BitcoinMainnet, Network.BitcoinTestnet,
   Network.LitecoinMainnet, Network.LitecoinTestnet].find?
    (fun n => hrp == (networkConfigs n).bech32HRP || hrp == (networkConfigs n).bech32mHRP)

/-- `DecodeAddress` from the source (src/unnamed/part_003 lines 396-445). -/
def DecodeAddress (addr : List Nat) : Except String Address :=
  match Bech32Decode addr with
  | .error e => .error e
  | .ok (hrp, data) =>
    match lookupNetworkByHRP hrp with
    | none => .error "unknown network"
    | some network =>
      match convertBits (data.drop 1) 5 8 false with
      | .error e => .error e
      | .ok decoded =>
        match data.headD 0 with
        | 0 =>
          if decoded.length ≠ 20 then .error "invalid P2WPKH data length"
          else .ok ⟨.P2WPKH, network, decoded⟩
        | 1 =>
          if decoded.length ≠ 32 then .error "invalid P2TR data length"
          else .ok ⟨.P2TR, network, decoded⟩
        | _ => .error "unsupported witness version"

/-- Whether a Go `(value, error)` style result is an error. -/
def isErr {α : Type} : Except String α → Bool
  | .error _ => true
  | .ok _ => false

/-! ## Proof-support characterizations of the repacking loops

These are not source functions: they factor the source's two repacking
loops into their value-processing part (state passed explicitly) and their
end-of-input policy, which the lemmas relating them to `convert8to5Go` and
`convertBitsGo` make precise. -/

/-- The byte-consuming part of `convert8to5Go`: emitted groups together with
the final accumulator state, the final padding group factored out. -/
def procEnc : Nat → Nat → List Nat → List Nat × Nat × Nat
  | acc, bits, [] => ([], acc, bits)
  | acc, bits, b :: rest =>
      let acc2 := (acc <<< 8) ||| b
      let gb := drainGroups 5 acc2 (bits + 8)
      let r := procEnc acc2 gb.2 rest
      (gb.1 ++ r.1, r.2.1, r.2.2)

/-- The group-consuming part of `convertBitsGo` at
`(fromBits, toBits) = (5, 8)`: emitted bytes together with the final
accumulator state, the end-of-input padding policy factored out. -/
def procDec : Nat → Nat → List Nat → Except String (List Nat × Nat × Nat)
  | acc, bits, [] => .ok ([], acc, bits)
  | acc, bits, v :: rest =>
      if v >>> 5 ≠ 0 then .error "invalid value"
      else
        let acc2 := ((acc <<< 5) ||| v) &&& 4095
        let gb := drainGroups 8 acc2 (bits + 5)
        match procDec acc2 gb.2 rest with
        | .error e => .error e
        | .ok (tail, a, b) => .ok (gb.1 ++ tail, a, b)

/-- The invariant tying the encoder state `(eacc, ebits)` of `convert8to5Go`
to the decoder state `(dacc, dbits)` of `convertBitsGo 5 8` after the decoder
has consumed every emitted group: the decoder holds the already-emitted high
bits of the byte whose low `ebits` bits the encoder still holds. -/
def EncDecInv (ebits dbits eacc dacc : Nat) : Prop :=
  ebits < 5 ∧ dbits = (if ebits = 0 then 0 else 8 - ebits) ∧
  (ebits ≠ 0 → dacc % 2 ^ dbits = (eacc % 256) / 2 ^ ebits)

/-! ## Transaction serialization (src/transaction.go, second revision) -/

/-- `OutPoint` from the source (the 32-byte hash as a byte list). -/
structure OutPoint where
  Hash : List Nat
  Index : Nat
deriving DecidableEq

/-- `TxIn` from the source. -/
structure TxIn where
  PreviousOutPoint : OutPoint
  SignatureScript : List Nat
  Witness : List (List Nat)
  Sequence : Nat
deriving DecidableEq

/-- `TxOut` from the source. -/
structure TxOut where
  Value : Int
  PkScript : List Nat
deriving DecidableEq

/-- `MsgTx` from the source. -/
structure MsgTx where
  Version : Int
  TxIn : List TxIn
  TxOut : List TxOut
  LockTime : Nat
deriving DecidableEq

/-- Little-endian encoding of `n` on `w` bytes (`binary.Write` with
`binary.LittleEndian` on a `w`-byte unsigned quantity). -/
def putLE : Nat → Nat → List Nat
  | 0, _ => []
  | w + 1, n => n % 256 :: putLE w (n / 256)

/-- The unsigned reinterpretation of a `bits`-wide signed Go integer
(two's complement), as written by `binary.Write`. -/
def uintOfInt (bits : Nat) (v : Int) : Nat := (v % (2 : Int) ^ bits).toNat

/-- `writeVarInt` from the source. -/
def writeVarInt (val : Nat) : List Nat :=
  if val < 0xfd then [val]
  else if val ≤ 0xffff then 0xfd :: putLE 2 val
  else if val ≤ 0xffffffff then 0xfe :: putLE 4 val
  else 0xff :: putLE 8 val

/-- `MsgTx.Serialize` from the source (src/transaction.go lines 430-488):
version, optional SegWit marker/flag, inputs, outputs, optional per-input
witness stacks, lock time. -/
def MsgTx.Serialize (tx : MsgTx) (includeWitness : Bool) : List Nat :=
  let hasWitness := includeWitness && tx.TxIn.any (fun txin => txin.Witness.length > 0)
  putLE 4 (uintOfInt 32 tx.Version)
  ++ (if hasWitness then [0x00, 0x01] else [])
  ++ writeVarInt tx.TxIn.length
  ++ tx.TxIn.flatMap (fun txin =>
      txin.PreviousOutPoint.Hash ++ putLE 4 txin.PreviousOutPoint.Index
      ++ writeVarInt txin.SignatureScript.length ++ txin.SignatureScript
      ++ putLE 4 txin.Sequence)
  ++ writeVarInt tx.TxOut.length
  ++ tx.TxOut.flatMap (fun txout =>
      putLE 8 (uintOfInt 64 txout.Value) ++ writeVarInt txout.PkScript.length
      ++ txout.PkScript)
  ++ (if hasWitness then
        tx.TxIn.flatMap (fun txin =>
          writeVarInt txin.Witness.length
          ++ txin.Witness.flatMap (fun item => writeVarInt item.length ++ item))
      else [])
  ++ putLE 4 tx.LockTime

/-! SHA-256.  Modelled from the spec: the source calls Go's `crypto/sha256`
(FIPS 180-4); the primitive is transcribed here so that `TxHash`/`WTxHash`
are fully defined. -/

/-- Modelled from the spec: right rotation of a 32-bit word (FIPS 180-4). -/
def rotr32 (x n : Nat) : Nat := ((x >>> n) ||| (x <<< (32 - n))) % 2 ^ 32

/-- Big-endian encoding of `n` on `w` bytes. -/
def beBytes : Nat → Nat → List Nat
  | 0, _ => []
  | w + 1, n => beBytes w (n / 256) ++ [n % 256]

/-- Modelled from the spec: the SHA-256 round constants. -/
def sha256K : List Nat :=
  [1116352408, 1899447441, 3049323471, 3921009573, 961987163, 1508970993,
   2453635748, 2870763221, 3624381080, 310598401, 607225278, 1426881987,
   1925078388, 2162078206, 2614888103, 3248222580, 3835390401, 4022224774,
   264347078, 604807628, 770255983, 1249150122, 1555081692, 1996064986,
   2554220882, 2821834349, 2952996808, 3210313671, 3336571891, 3584528711,
   113926993, 338241895, 666307205, 773529912, 1294757372, 1396182291,
   1695183700, 1986661051, 2177026350, 2456956037, 2730485921, 2820302411,
   3259730800, 3345764771, 3516065817, 3600352804, 4094571909, 275423344,
   430227734, 506948616, 659060556, 883997877, 958139571, 1322822218,
   1537002063, 1747873779, 1955562222, 2024104815, 2227730452, 2361852424,
   2428436474, 2756734187, 3204031479, 3329325298]

/-- Modelled from the spec: the SHA-256 initial hash state. -/
def sha256H0 : List Nat :=
  [1779033703, 3144134277, 1013904242, 2773480762,
   1359893119, 2600822924, 528734635, 1541459225]

/-- Modelled from the spec: SHA-256 padding, `0x80`, zeros to 56 mod 64,
then the 8-byte big-endian bit length. -/
def sha256Pad (msg : List Nat) : List Nat :=
  msg ++ 0x80 :: List.replicate ((55 - msg.length % 64) % 64) 0
      ++ beBytes 8 (8 * msg.length)

/-- Modelled from the spec: big-endian 32-bit words of a byte list. -/
def toWords : List Nat → List Nat
  | b0 :: b1 :: b2 :: b3 :: rest =>
      (((b0 * 256 + b1) * 256 + b2) * 256 + b3) :: toWords rest
  | _ => []

/-- Modelled from the spec: message-schedule extension, appending `n`
further words. -/
def extendWs (sig0 sig1 : Nat → Nat) : List Nat → Nat → List Nat
  | acc, 0 => acc
  | acc, n + 1 =>
      extendWs sig0 sig1
        (acc ++ [(sig1 (acc.getD (acc.length - 2) 0) + acc.getD (acc.length - 7) 0
          + sig0 (acc.getD (acc.length - 15) 0) + acc.getD (acc.length - 16) 0)
          % 2 ^ 32]) n

/-- Modelled from the spec: one SHA-256 round on the eight-word working
state. -/
def sha256Round (st : Nat × Nat × Nat × Nat × Nat × Nat × Nat × Nat) (k w : Nat) :
    Nat × Nat × Nat × Nat × Nat × Nat × Nat × Nat :=
  match st with
  | (a, b, c, d, e, f, g, h) =>
    let t1 := (h + (rotr32 e 6 ^^^ rotr32 e 11 ^^^ rotr32 e 25)
      + ((e &&& f) ^^^ ((e ^^^ 0xffffffff) &&& g)) + k + w) % 2 ^ 32
    let t2 := ((rotr32 a 2 ^^^ rotr32 a 13 ^^^ rotr32 a 22)
      + ((a &&& b) ^^^ (a &&& c) ^^^ (b &&& c))) % 2 ^ 32
    ((t1 + t2) % 2 ^ 32, a, b, c, (d + t1) % 2 ^ 32, e, f, g)

/-- Modelled from the spec: SHA-256 compression of one 64-byte block into
the chaining state. -/
def sha256Block (H : List Nat) (block : List Nat) : List Nat :=
  let ws := extendWs
    (fun x => rotr32 x 7 ^^^ rotr32 x 18 ^^^ (x >>> 3))
    (fun x => rotr32 x 17 ^^^ rotr32 x 19 ^^^ (x >>> 10))
    (toWords block) 48
  let fin := (sha256K.zip ws).foldl
    (fun st kw => sha256Round st kw.1 kw.2)
    (H.getD 0 0, H.getD 1 0, H.getD 2 0, H.getD 3 0,
     H.getD 4 0, H.getD 5 0, H.getD 6 0, H.getD 7 0)
  match fin with
  | (a, b, c, d, e, f, g, h) =>
    [(H.getD 0 0 + a) % 2 ^ 32, (H.getD 1 0 + b) % 2 ^ 32,
     (H.getD 2 0 + c) % 2 ^ 32, (H.getD 3 0 + d) % 2 ^ 32,
     (H.getD 4 0 + e) % 2 ^ 32, (H.getD 5 0 + f) % 2 ^ 32,
     (H.getD 6 0 + g) % 2 ^ 32, (H.getD 7 0 + h) % 2 ^ 32]

/-- Modelled from the spec: the padded message split into 64-byte blocks. -/
def groupBlocks : List Nat → List (List Nat)
  | [] => []
  | x :: xs => (x :: xs).take 64 :: groupBlocks ((x :: xs).drop 64)
termination_by l => l.length
decreasing_by simp [List.length_drop]; omega

/-- Modelled from the spec: SHA-256 of a byte list. -/
def sha256 (msg : List Nat) : List Nat :=
  ((groupBlocks (sha256Pad msg)).foldl sha256Block sha256H0).flatMap (beBytes 4)

/-- `sha256Double` from the source (the primitive it calls is the
spec-modelled `sha256` above). -/
def sha256Double (data : List Nat) : List Nat := sha256 (sha256 data)

/-- `MsgTx.TxHash` from the source: double SHA-256 of the non-witness
serialization. -/
def MsgTx.TxHash (tx : MsgTx) : List Nat := sha256Double (tx.Serialize false)

/-- `MsgTx.WTxHash` from the source: double SHA-256 of the witness-inclusive
serialization. -/
def MsgTx.WTxHash (tx : MsgTx) : List Nat := sha256Double (tx.Serialize true)

/-! ## RIPEMD-160, Hash160 and address validation (src/unnamed/part_003) -/

/-- Left rotation of a 32-bit word (`rl` in the source). -/
def rotl32 (x n : Nat) : Nat := ((x <<< n) % 4294967296) ||| (x >>> (32 - n))

/-- `f` from the source block function. -/
def fF (x y z : Nat) : Nat := x ^^^ y ^^^ z

/-- `g` from the source block function (complement as xor with the 32-bit
mask). -/
def fG (x y z : Nat) : Nat := (x &&& y) ||| ((x ^^^ 4294967295) &&& z)

/-- `h` from the source block function. -/
def fH (x y z : Nat) : Nat := (x ||| (y ^^^ 4294967295)) ^^^ z

/-- `i` from the source block function. -/
def fI (x y z : Nat) : Nat := (x &&& z) ||| (y &&& (z ^^^ 4294967295))

/-- `j` from the source block function. -/
def fJ (x y z : Nat) : Nat := x ^^^ (y ||| (z ^^^ 4294967295))

/-- The five-word chaining state of `ripemd160State`. -/
structure R160State where
  h0 : Nat
  h1 : Nat
  h2 : Nat
  h3 : Nat
  h4 : Nat
deriving DecidableEq

/-- `block` from the source, transliterated line by line (the source's left
line runs three rounds and the right line five, exactly as written there).
`X i` is the `i`-th little-endian word of the 64-byte block. -/
def ripemd160Block (s : R160State) (X : Nat → Nat) : R160State :=
  let a := s.h0
  let b := s.h1
  let c := s.h2
  let d := s.h3
  let e := s.h4
  let A := s.h0
  let B := s.h1
  let C := s.h2
  let D := s.h3
  let E := s.h4
let a := (rotl32 ((a + fF b c d + X 0) % 4294967296) 11 + e) % 4294967296
  let c := rotl32 c 10
  let e := (rotl32 ((e + fF a b c + X 1) % 4294967296) 14 + d) % 4294967296
  let b := rotl32 b 10
  let d := (rotl32 ((d + fF e a b + X 2) % 4294967296) 15 + c) % 4294967296
  let a := rotl32 a 10
  let c := (rotl32 ((c + fF d e a + X 3) % 4294967296) 12 + b) % 4294967296
  let e := rotl32 e 10
  let b := (rotl32 ((b + fF c d e + X 4) % 4294967296) 5 + a) % 4294967296
  let d := rotl32 d 10
  let a := (rotl32 ((a + fF b c d + X 5) % 4294967296) 8 + e) % 4294967296
  let c := rotl32 c 10
  let e := (rotl32 ((e + fF a b c + X 6) % 4294967296) 7 + d) % 4294967296
  let b := rotl32 b 10
  let d := (rotl32 ((d + fF e a b + X 7) % 4294967296) 9 + c) % 4294967296
  let a := rotl32 a 10
  let c := (rotl32 ((c + fF d e a + X 8) % 4294967296) 11 + b) % 4294967296
  let e := rotl32 e 10
  let b := (rotl32 ((b + fF c d e + X 9) % 4294967296) 13 + a) % 4294967296
  let d := rotl32 d 10
  let a := (rotl32 ((a + fF b c d + X 10) % 4294967296) 14 + e) % 4294967296
  let c := rotl32 c 10
  let e := (rotl32 ((e + fF a b c + X 11) % 4294967296) 15 + d) % 4294967296
  let b := rotl32 b 10
  let d := (rotl32 ((d + fF e a b + X 12) % 4294967296) 6 + c) % 4294967296
  let a := rotl32 a 10
  let c := (rotl32 ((c + fF d e a + X 13) % 4294967296) 7 + b) % 4294967296
  let e := rotl32 e 10
  let b := (rotl32 ((b + fF c d e + X 14) % 4294967296) 9 + a) % 4294967296
  let d := rotl32 d 10
  let a := (rotl32 ((a + fF b c d + X 15) % 4294967296) 8 + e) % 4294967296
  let c := rotl32 c 10
  let a := (rotl32 ((a + fG b c d + X 7 + 0x5a827999) % 4294967296) 7 + e) % 4294967296
  let c := rotl32 c 10
  let e := (rotl32 ((e + fG a b c + X 4 + 0x5a827999) % 4294967296) 6 + d) % 4294967296
  let b := rotl32 b 10
  let d := (rotl32 ((d + fG e a b + X 13 + 0x5a827999) % 4294967296) 8 + c) % 4294967296
  let a := rotl32 a 10
  let c := (rotl32 ((c + fG d e a + X 1 + 0x5a827999) % 4294967296) 13 + b) % 4294967296
  let e := rotl32 e 10
  let b := (rotl32 ((b + fG c d e + X 10 + 0x5a827999) % 4294967296) 11 + a) % 4294967296
  let d := rotl32 d 10
  let a := (rotl32 ((a + fG b c d + X 6 + 0x5a827999) % 4294967296) 9 + e) % 4294967296
  let c := rotl32 c 10
  let e := (rotl32 ((e + fG a b c + X 15 + 0x5a827999) % 4294967296) 7 + d) % 4294967296
  let b := rotl32 b 10
  let d := (rotl32 ((d + fG e a b + X 3 + 0x5a827999) % 4294967296) 15 + c) % 4294967296
  let a := rotl32 a 10
  let c := (rotl32 ((c + fG d e a + X 12 + 0x5a827999) % 4294967296) 7 + b) % 4294967296
  let e := rotl32 e 10
  let b := (rotl32 ((b + fG c d e + X 0 + 0x5a827999) % 4294967296) 12 + a) % 4294967296
  let d := rotl32 d 10
  let a := (rotl32 ((a + fG b c d + X 9 + 0x5a827999) % 4294967296) 15 + e) % 4294967296
  let c := rotl32 c 10
  let e := (rotl32 ((e + fG a b c + X 5 + 0x5a827999) % 4294967296) 9 + d) % 4294967296
  let b := rotl32 b 10
  let d := (rotl32 ((d + fG e a b + X 2 + 0x5a827999) % 4294967296) 11 + c) % 4294967296
  let a := rotl32 a 10
  let c := (rotl32 ((c + fG d e a + X 14 + 0x5a827999) % 4294967296) 7 + b) % 4294967296
  let e := rotl32 e 10
  let b := (rotl32 ((b + fG c d e + X 11 + 0x5a827999) % 4294967296) 13 + a) % 4294967296
  let d := rotl32 d 10
  let a := (rotl32 ((a + fG b c d + X 8 + 0x5a827999) % 4294967296) 12 + e) % 4294967296
  let c := rotl32 c 10
  let a := (rotl32 ((a + fH b c d + X 3 + 0x6ed9eba1) % 4294967296) 11 + e) % 4294967296
  let c := rotl32 c 10
  let e := (rotl32 ((e + fH a b c + X 10 + 0x6ed9eba1) % 4294967296) 13 + d) % 4294967296
  let b := rotl32 b 10
  let d := (rotl32 ((d + fH e a b + X 14 + 0x6ed9eba1) % 4294967296) 6 + c) % 4294967296
  let a := rotl32 a 10
  let c := (rotl32 ((c + fH d e a + X 4 + 0x6ed9eba1) % 4294967296) 7 + b) % 4294967296
  let e := rotl32 e 10
  let b := (rotl32 ((b + fH c d e + X 9 + 0x6ed9eba1) % 4294967296) 14 + a) % 4294967296
  let d := rotl32 d 10
  let a := (rotl32 ((a + fH b c d + X 15 + 0x6ed9eba1) % 4294967296) 9 + e) % 4294967296
  let c := rotl32 c 10
  let e := (rotl32 ((e + fH a b c + X 8 + 0x6ed9eba1) % 4294967296) 13 + d) % 4294967296
  let b := rotl32 b 10
  let d := (rotl32 ((d + fH e a b + X 1 + 0x6ed9eba1) % 4294967296) 15 + c) % 4294967296
  let a := rotl32 a 10
  let c := (rotl32 ((c + fH d e a + X 2 + 0x6ed9eba1) % 4294967296) 14 + b) % 4294967296
  let e := rotl32 e 10
  let b := (rotl32 ((b + fH c d e + X 7 + 0x6ed9eba1) % 4294967296) 8 + a) % 4294967296
  let d := rotl32 d 10
  let a := (rotl32 ((a + fH b c d + X 0 + 0x6ed9eba1) % 4294967296) 13 + e) % 4294967296
  let c := rotl32 c 10
  let e := (rotl32 ((e + fH a b c + X 6 + 0x6ed9eba1) % 4294967296) 6 + d) % 4294967296
  let b := rotl32 b 10
  let d := (rotl32 ((d + fH e a b + X 13 + 0x6ed9eba1) % 4294967296) 5 + c) % 4294967296
  let a := rotl32 a 10
  let c := (rotl32 ((c + fH d e a + X 11 + 0x6ed9eba1) % 4294967296) 12 + b) % 4294967296
  let e := rotl32 e 10
  let b := (rotl32 ((b + fH c d e + X 5 + 0x6ed9eba1) % 4294967296) 7 + a) % 4294967296
  let d := rotl32 d 10
  let a := (rotl32 ((a + fH b c d + X 12 + 0x6ed9eba1) % 4294967296) 5 + e) % 4294967296
  let c := rotl32 c 10
  let A := (rotl32 ((A + fJ B C D + X 5 + 0x50a28be6) % 4294967296) 8 + E) % 4294967296
  let C := rotl32 C 10
  let E := (rotl32 ((E + fJ A B C + X 14 + 0x50a28be6) % 4294967296) 9 + D) % 4294967296
  let B := rotl32 B 10
  let D := (rotl32 ((D + fJ E A B + X 7 + 0x50a28be6) % 4294967296) 9 + C) % 4294967296
  let A := rotl32 A 10
  let C := (rotl32 ((C + fJ D E A + X 0 + 0x50a28be6) % 4294967296) 11 + B) % 4294967296
  let E := rotl32 E 10
  let B := (rotl32 ((B + fJ C D E + X 9 + 0x50a28be6) % 4294967296) 13 + A) % 4294967296
  let D := rotl32 D 10
  let A := (rotl32 ((A + fJ B C D + X 2 + 0x50a28be6) % 4294967296) 15 + E) % 4294967296
  let C := rotl32 C 10
  let E := (rotl32 ((E + fJ A B C + X 11 + 0x50a28be6) % 4294967296) 15 + D) % 4294967296
  let B := rotl32 B 10
  let D := (rotl32 ((D + fJ E A B + X 4 + 0x50a28be6) % 4294967296) 5 + C) % 4294967296
  let A := rotl32 A 10
  let C := (rotl32 ((C + fJ D E A + X 13 + 0x50a28be6) % 4294967296) 7 + B) % 4294967296
  let E := rotl32 E 10
  let B := (rotl32 ((B + fJ C D E + X 6 + 0x50a28be6) % 4294967296) 7 + A) % 4294967296
  let D := rotl32 D 10
  let A := (rotl32 ((A + fJ B C D + X 15 + 0x50a28be6) % 4294967296) 8 + E) % 4294967296
  let C := rotl32 C 10
  let E := (rotl32 ((E + fJ A B C + X 8 + 0x50a28be6) % 4294967296) 11 + D) % 4294967296
  let B := rotl32 B 10
  let D := (rotl32 ((D + fJ E A B + X 1 + 0x50a28be6) % 4294967296) 14 + C) % 4294967296
  let A := rotl32 A 10
  let C := (rotl32 ((C + fJ D E A + X 10 + 0x50a28be6) % 4294967296) 14 + B) % 4294967296
  let E := rotl32 E 10
  let B := (rotl32 ((B + fJ C D E + X 3 + 0x50a28be6) % 4294967296) 12 + A) % 4294967296
  let D := rotl32 D 10
  let A := (rotl32 ((A + fJ B C D + X 12 + 0x50a28be6) % 4294967296) 6 + E) % 4294967296
  let C := rotl32 C 10
  let A := (rotl32 ((A + fI B C D + X 6 + 0x5c4dd124) % 4294967296) 9 + E) % 4294967296
  let C := rotl32 C 10
  let E := (rotl32 ((E + fI A B C + X 11 + 0x5c4dd124) % 4294967296) 13 + D) % 4294967296
  let B := rotl32 B 10
  let D := (rotl32 ((D + fI E A B + X 3 + 0x5c4dd124) % 4294967296) 15 + C) % 4294967296
  let A := rotl32 A 10
  let C := (rotl32 ((C + fI D E A + X 7 + 0x5c4dd124) % 4294967296) 7 + B) % 4294967296
  let E := rotl32 E 10
  let B := (rotl32 ((B + fI C D E + X 0 + 0x5c4dd124) % 4294967296) 12 + A) % 4294967296
  let D := rotl32 D 10
  let A := (rotl32 ((A + fI B C D + X 13 + 0x5c4dd124) % 4294967296) 8 + E) % 4294967296
  let C := rotl32 C 10
  let E := (rotl32 ((E + fI A B C + X 5 + 0x5c4dd124) % 4294967296) 9 + D) % 4294967296
  let B := rotl32 B 10
  let D := (rotl32 ((D + fI E A B + X 10 + 0x5c4dd124) % 4294967296) 11 + C) % 4294967296
  let A := rotl32 A 10
  let C := (rotl32 ((C + fI D E A + X 14 + 0x5c4dd124) % 4294967296) 7 + B) % 4294967296
  let E := rotl32 E 10
  let B := (rotl32 ((B + fI C D E + X 15 + 0x5c4dd124) % 4294967296) 7 + A) % 4294967296
  let D := rotl32 D 10
  let A := (rotl32 ((A + fI B C D + X 8 + 0x5c4dd124) % 4294967296) 12 + E) % 4294967296
  let C := rotl32 C 10
  let E := (rotl32 ((E + fI A B C + X 12 + 0x5c4dd124) % 4294967296) 7 + D) % 4294967296
  let B := rotl32 B 10
  let D := (rotl32 ((D + fI E A B + X 4 + 0x5c4dd124) % 4294967296) 6 + C) % 4294967296
  let A := rotl32 A 10
  let C := (rotl32 ((C + fI D E A + X 9 + 0x5c4dd124) % 4294967296) 15 + B) % 4294967296
  let E := rotl32 E 10
  let B := (rotl32 ((B + fI C D E + X 1 + 0x5c4dd124) % 4294967296) 13 + A) % 4294967296
  let D := rotl32 D 10
  let A := (rotl32 ((A + fI B C D + X 2 + 0x5c4dd124) % 4294967296) 11 + E) % 4294967296
  let C := rotl32 C 10
  let A := (rotl32 ((A + fH B C D + X 15 + 0x6d703ef3) % 4294967296) 9 + E) % 4294967296
  let C := rotl32 C 10
  let E := (rotl32 ((E + fH A B C + X 5 + 0x6d703ef3) % 4294967296) 7 + D) % 4294967296
  let B := rotl32 B 10
  let D := (rotl32 ((D + fH E A B + X 1 + 0x6d703ef3) % 4294967296) 15 + C) % 4294967296
  let A := rotl32 A 10
  let C := (rotl32 ((C + fH D E A + X 3 + 0x6d703ef3) % 4294967296) 11 + B) % 4294967296
  let E := rotl32 E 10
  let B := (rotl32 ((B + fH C D E + X 7 + 0x6d703ef3) % 4294967296) 8 + A) % 4294967296
  let D := rotl32 D 10
  let A := (rotl32 ((A + fH B C D + X 14 + 0x6d703ef3) % 4294967296) 6 + E) % 4294967296
  let C := rotl32 C 10
  let E := (rotl32 ((E + fH A B C + X 6 + 0x6d703ef3) % 4294967296) 6 + D) % 4294967296
  let B := rotl32 B 10
  let D := (rotl32 ((D + fH E A B + X 9 + 0x6d703ef3) % 4294967296) 14 + C) % 4294967296
  let A := rotl32 A 10
  let C := (rotl32 ((C + fH D E A + X 11 + 0x6d703ef3) % 4294967296) 12 + B) % 4294967296
  let E := rotl32 E 10
  let B := (rotl32 ((B + fH C D E + X 8 + 0x6d703ef3) % 4294967296) 13 + A) % 4294967296
  let D := rotl32 D 10
  let A := (rotl32 ((A + fH B C D + X 12 + 0x6d703ef3) % 4294967296) 5 + E) % 4294967296
  let C := rotl32 C 10
  let E := (rotl32 ((E + fH A B C + X 2 + 0x6d703ef3) % 4294967296) 14 + D) % 4294967296
  let B := rotl32 B 10
  let D := (rotl32 ((D + fH E A B + X 10 + 0x6d703ef3) % 4294967296) 13 + C) % 4294967296
  let A := rotl32 A 10
  let C := (rotl32 ((C + fH D E A + X 0 + 0x6d703ef3) % 4294967296) 13 + B) % 4294967296
  let E := rotl32 E 10
  let B := (rotl32 ((B + fH C D E + X 4 + 0x6d703ef3) % 4294967296) 7 + A) % 4294967296
  let D := rotl32 D 10
  let A := (rotl32 ((A + fH B C D + X 13 + 0x6d703ef3) % 4294967296) 5 + E) % 4294967296
  let C := rotl32 C 10
  let A := (rotl32 ((A + fG B C D + X 8 + 0x7a6d76e9) % 4294967296) 15 + E) % 4294967296
  let C := rotl32 C 10
  let E := (rotl32 ((E + fG A B C + X 6 + 0x7a6d76e9) % 4294967296) 5 + D) % 4294967296
  let B := rotl32 B 10
  let D := (rotl32 ((D + fG E A B + X 4 + 0x7a6d76e9) % 4294967296) 8 + C) % 4294967296
  let A := rotl32 A 10
  let C := (rotl32 ((C + fG D E A + X 1 + 0x7a6d76e9) % 4294967296) 11 + B) % 4294967296
  let E := rotl32 E 10
  let B := (rotl32 ((B + fG C D E + X 3 + 0x7a6d76e9) % 4294967296) 14 + A) % 4294967296
  let D := rotl32 D 10
  let A := (rotl32 ((A + fG B C D + X 11 + 0x7a6d76e9) % 4294967296) 14 + E) % 4294967296
  let C := rotl32 C 10
  let E := (rotl32 ((E + fG A B C + X 15 + 0x7a6d76e9) % 4294967296) 6 + D) % 4294967296
  let B := rotl32 B 10
  let D := (rotl32 ((D + fG E A B + X 0 + 0x7a6d76e9) % 4294967296) 14 + C) % 4294967296
  let A := rotl32 A 10
  let C := (rotl32 ((C + fG D E A + X 5 + 0x7a6d76e9) % 4294967296) 6 + B) % 4294967296
  let E := rotl32 E 10
  let B := (rotl32 ((B + fG C D E + X 12 + 0x7a6d76e9) % 4294967296) 9 + A) % 4294967296
  let D := rotl32 D 10
  let A := (rotl32 ((A + fG B C D + X 2 + 0x7a6d76e9) % 4294967296) 12 + E) % 4294967296
  let C := rotl32 C 10
  let E := (rotl32 ((E + fG A B C + X 13 + 0x7a6d76e9) % 4294967296) 9 + D) % 4294967296
  let B := rotl32 B 10
  let D := (rotl32 ((D + fG E A B + X 9 + 0x7a6d76e9) % 4294967296) 12 + C) % 4294967296
  let A := rotl32 A 10
  let C := (rotl32 ((C + fG D E A + X 7 + 0x7a6d76e9) % 4294967296) 5 + B) % 4294967296
  let E := rotl32 E 10
  let B := (rotl32 ((B + fG C D E + X 10 + 0x7a6d76e9) % 4294967296) 15 + A) % 4294967296
  let D := rotl32 D 10
  let A := (rotl32 ((A + fG B C D + X 14 + 0x7a6d76e9) % 4294967296) 8 + E) % 4294967296
  let C := rotl32 C 10
  let A := (rotl32 ((A + fF B C D + X 12 + 0x00000000) % 4294967296) 8 + E) % 4294967296
  let C := rotl32 C 10
  let E := (rotl32 ((E + fF A B C + X 15 + 0x00000000) % 4294967296) 5 + D) % 4294967296
  let B := rotl32 B 10
  let D := (rotl32 ((D + fF E A B + X 10 + 0x00000000) % 4294967296) 12 + C) % 4294967296
  let A := rotl32 A 10
  let C := (rotl32 ((C + fF D E A + X 4 + 0x00000000) % 4294967296) 9 + B) % 4294967296
  let E := rotl32 E 10
  let B := (rotl32 ((B + fF C D E + X 1 + 0x00000000) % 4294967296) 12 + A) % 4294967296
  let D := rotl32 D 10
  let A := (rotl32 ((A + fF B C D + X 5 + 0x00000000) % 4294967296) 5 + E) % 4294967296
  let C := rotl32 C 10
  let E := (rotl32 ((E + fF A B C + X 8 + 0x00000000) % 4294967296) 14 + D) % 4294967296
  let B := rotl32 B 10
  let D := (rotl32 ((D + fF E A B + X 7 + 0x00000000) % 4294967296) 6 + C) % 4294967296
  let A := rotl32 A 10
  let C := (rotl32 ((C + fF D E A + X 6 + 0x00000000) % 4294967296) 8 + B) % 4294967296
  let E := rotl32 E 10
  let B := (rotl32 ((B + fF C D E + X 2 + 0x00000000) % 4294967296) 13 + A) % 4294967296
  let D := rotl32 D 10
  let A := (rotl32 ((A + fF B C D + X 13 + 0x00000000) % 4294967296) 6 + E) % 4294967296
  let C := rotl32 C 10
  let E := (rotl32 ((E + fF A B C + X 14 + 0x00000000) % 4294967296) 5 + D) % 4294967296
  let B := rotl32 B 10
  let D := (rotl32 ((D + fF E A B + X 0 + 0x00000000) % 4294967296) 15 + C) % 4294967296
  let A := rotl32 A 10
  let C := (rotl32 ((C + fF D E A + X 3 + 0x00000000) % 4294967296) 13 + B) % 4294967296
  let E := rotl32 E 10
  let B := (rotl32 ((B + fF C D E + X 9 + 0x00000000) % 4294967296) 11 + A) % 4294967296
  let D := rotl32 D 10
  let A := (rotl32 ((A + fF B C D + X 11 + 0x00000000) % 4294967296) 11 + E) % 4294967296
  let C := rotl32 C 10
  let t := (s.h1 + c + D) % 4294967296
  ⟨t, (s.h2 + d + E) % 4294967296, (s.h3 + e + A) % 4294967296,
   (s.h4 + a + B) % 4294967296, (s.h0 + b + C) % 4294967296⟩

/-- Little-endian 32-bit words of a byte list. -/
def toWordsLE : List Nat → List Nat
  | b0 :: b1 :: b2 :: b3 :: rest =>
      (b0 + b1 * 256 + b2 * 65536 + b3 * 16777216) :: toWordsLE rest
  | _ => []

/-- RIPEMD-160 padding (`0x80`, zeros to 56 mod 64, 8-byte little-endian bit
length), the effect of the source's streaming `Write`/`Sum` pair on a
message written in one call. -/
def ripemd160Pad (msg : List Nat) : List Nat :=
  msg ++ 0x80 :: List.replicate ((55 - msg.length % 64) % 64) 0
      ++ putLE 8 (8 * msg.length)

/-- `ripemd160` from the source: pad, compress 64-byte blocks, output the
five state words little-endian. -/
def ripemd160 (data : List Nat) : List Nat :=
  let fin := (groupBlocks (ripemd160Pad data)).foldl
    (fun st blk => ripemd160Block st (fun i => (toWordsLE blk).getD i 0))
    ⟨0x67452301, 0xefcdab89, 0x98badcfe, 0x10325476, 0xc3d2e1f0⟩
  putLE 4 fin.h0 ++ putLE 4 fin.h1 ++ putLE 4 fin.h2
    ++ putLE 4 fin.h3 ++ putLE 4 fin.h4

/-- `Hash160` from the source: RIPEMD-160 of SHA-256. -/
def Hash160 (data : List Nat) : List Nat := ripemd160 (sha256 data)

/-- `ValidateAddress` from the source (`bytesEqual` is list equality). -/
def ValidateAddress (addr : List Nat) (pubKey : List Nat) (network : Network) :
    Except String Unit :=
  match DecodeAddress addr with
  | .error e => .error e
  | .ok decoded =>
    if decoded.network ≠ network then .error "address network mismatch"
    else if decoded.addrType = .P2WPKH ∧ decoded.data ≠ Hash160 pubKey then
      .error "address does not match public key"
    else if decoded.addrType = .P2TR ∧ decoded.data.length ≠ 32 then
      .error "invalid taproot output key length"
    else .ok ()

/-- `DeriveChangeAddress` from the source. -/
def DeriveChangeAddress (pubKey : List Nat) (network : Network) :
    Except String (List Nat) :=
  CreateP2WPKH (Hash160 pubKey) network

/-- `BuildP2WPKHScript` from the source (the source panics when the hash is
not 20 bytes; its callers only pass decode-checked 20-byte data). -/
def BuildP2WPKHScript (pubKeyHash : List Nat) : List Nat :=
  0x00 :: 0x14 :: pubKeyHash

/-- `BuildP2TRScript` from the source (the source panics when the key is not
32 bytes; its callers only pass decode-checked 32-byte data). -/
def BuildP2TRScript (taprootOutputKey : List Nat) : List Nat :=
  0x51 :: 0x20 :: taprootOutputKey

/-! ## Sweeper state and planner (src/unnamed/part_001)

Go strings are byte lists; `int`/`int64` are `Int`; the `float64` dust
inputs are exact rationals.  The KV store keeps the stored value itself
(the source stores its JSON bytes, an injective image); the `chainDepth`
map and the KV store are association lists with most-recent-first lookup. -/

/-- The value stored in the KV store: `Index` stores the indexed UTXO,
`SetSpendingWallets` the weight list (the source stores their JSON). -/
inductive KVVal
  | utxoVal : UTXO → KVVal
  | weightsVal : List WeightedAddr → KVVal
deriving DecidableEq

/-- Go map assignment on an association list. -/
def kvPut (key : List Nat) (v : KVVal) (kv : List (List Nat × KVVal)) :
    List (List Nat × KVVal) :=
  (key, v) :: kv.filter (fun p => p.1 != key)

/-- Decimal digits of a natural number as ASCII bytes (`%d`). -/
def natDecimalBytes (n : Nat) : List Nat :=
  if h : n < 10 then [48 + n]
  else natDecimalBytes (n / 10) ++ [48 + n % 10]
decreasing_by exact Nat.div_lt_self (by omega) (by norm_num)

/-- The KV key `utxo:<txid>:<vout>` written by `Index`. -/
def utxoKey (u : UTXO) : List Nat :=
  [117, 116, 120, 111, 58] ++ u.TxID ++ 58 :: natDecimalBytes u.Vout

/-- `Sweeper` from the source. -/
structure Sweeper where
  pubKey : List Nat
  network : Network
  asset : Asset
  feeRateSatsVB : Int
  minDustSats : Int
  minUSD : ℚ
  priceUSDPerBTC : ℚ
  allowUnconfirmed : Bool
  maxUnconfInputs : Int
  maxChainDepth : Int
  testMode : Bool
  enforcePubKey : Bool
  changeSplitParts : Int
  targetChunkSats : Int
  minChunkSats : Int
  allocationByWeights : List WeightedAddr
  kv : List (List Nat × KVVal)
  indexedUTXOs : List UTXO
  chainDepth : List (List Nat × Int)
deriving DecidableEq

/-- `NewSweeper` from the source (`0.50` exactly as `1/2`). -/
def NewSweeper (pubKey : List Nat) (network : Network) : Sweeper :=
  ⟨pubKey, network, getAssetFromNetwork network, 5, 600, 1/2, 55000,
   true, 2, 2, false, true, 0, 0, 0, [], [], [], []⟩

/-- `getChainDepth` from the source (missing key reads as 0). -/
def Sweeper.getChainDepth (s : Sweeper) (txid : List Nat) : Int :=
  match s.chainDepth.find? (fun p => p.1 == txid) with
  | some p => p.2
  | none => 0

/-- `setChainDepth` from the source. -/
def Sweeper.setChainDepth (s : Sweeper) (txid : List Nat) (depth : Int) : Sweeper :=
  { s with chainDepth :=
      (txid, depth) :: s.chainDepth.filter (fun p => p.1 != txid) }

/-- The dust computation repeated at the top of `checkDustThreshold`,
`buildTransaction` and `ConsolidateAll`: the larger of the USD-derived and
the absolute floor. -/
def effectiveDust (s : Sweeper) : Int :=
  let dustUSD := dustFromUSD s.minUSD s.priceUSDPerBTC
  if dustUSD > s.minDustSats then dustUSD else s.minDustSats

/-- `checkDustThreshold` from the source. -/
def Sweeper.checkDustThreshold (s : Sweeper) (u : UTXO) : Except String Unit :=
  if u.ValueSats < effectiveDust s then
    .error "UTXO value below dust threshold"
  else .ok ()

/-- `validateUTXOAddress` from the source. -/
def Sweeper.validateUTXOAddress (s : Sweeper) (u : UTXO) : Except String Unit :=
  if s.testMode then .ok ()
  else
    match DecodeAddress u.Address with
    | .error e => .error e
    | .ok addr =>
      if addr.network ≠ s.network then .error "address network mismatch"
      else if s.enforcePubKey then ValidateAddress u.Address s.pubKey s.network
      else .ok ()

/-- `Index` from the source: validation, dust check, unconfirmed policy and
chain-depth check, then append to the index and store under `utxo:...`. -/
def Sweeper.Index (s : Sweeper) (utxo : UTXO) : Except String Unit × Sweeper :=
  match s.validateUTXOAddress utxo with
  | .error e => (.error ("address validation failed: " ++ e), s)
  | .ok _ =>
  match s.checkDustThreshold utxo with
  | .error e => (.error ("dust threshold check failed: " ++ e), s)
  | .ok _ =>
  if ¬utxo.Confirmed ∧ ¬s.allowUnconfirmed then
    (.error "unconfirmed UTXOs not allowed", s)
  else if ¬utxo.Confirmed ∧ s.getChainDepth utxo.TxID ≥ s.maxChainDepth then
    (.error "chain depth exceeds maximum", s)
  else
    (.ok (), { s with
      indexedUTXOs := s.indexedUTXOs ++ [utxo],
      kv := kvPut (utxoKey utxo) (.utxoVal utxo) s.kv })

/-- Stable insertion of a UTXO into a value-ascending list (equal values
keep their relative order; `sort.Slice`'s order among equal values is
unspecified in Go, the stable order is the model's choice). -/
def insertByValue (u : UTXO) : List UTXO → List UTXO
  | [] => [u]
  | v :: rest =>
      if u.ValueSats < v.ValueSats then u :: v :: rest
      else v :: insertByValue u rest

/-- Value-ascending insertion sort (the `sort.Slice` call in
`filterUTXOs`). -/
def sortByValue : List UTXO → List UTXO
  | [] => []
  | u :: rest => insertByValue u (sortByValue rest)

/-- The retention loop of `filterUTXOs` with its unconfirmed-input
counter. -/
def filterLoop (s : Sweeper) (minValue : Int) : List UTXO → Int → List UTXO
  | [], _ => []
  | u :: rest, unconf =>
    if u.ValueSats < minValue then filterLoop s minValue rest unconf
    else if ¬s.allowUnconfirmed ∧ ¬u.Confirmed then filterLoop s minValue rest unconf
    else if s.allowUnconfirmed ∧ ¬u.Confirmed then
      if unconf ≥ s.maxUnconfInputs then filterLoop s minValue rest unconf
      else u :: filterLoop s minValue rest (unconf + 1)
    else u :: filterLoop s minValue rest unconf

/-- `filterUTXOs` from the source: sort ascending by value, then apply the
dust and unconfirmed filters. -/
def Sweeper.filterUTXOs (s : Sweeper) (utxos : List UTXO) (minValue : Int) :
    List UTXO :=
  filterLoop s minValue (sortByValue utxos) 0

/-- The greedy walk of `selectUTXOsFor`: append candidates one at a time;
stop as soon as the running total covers target plus the fee estimated for
the current input count. -/
def selectLoop (s : Sweeper) (targetOut : Int) (nOut : Int) :
    List UTXO → List UTXO → Int → Except String (List UTXO × Int × Int)
  | [], _, _ => .error "balance is not enough for outputs + fee"
  | c :: rest, selected, totalIn =>
    let selected2 := selected ++ [c]
    let totalIn2 := totalIn + c.ValueSats
    let fee := estimateTxVBytes (selected2.length : Int) nOut * s.feeRateSatsVB
    if totalIn2 ≥ targetOut + fee then .ok (selected2, totalIn2, fee)
    else selectLoop s targetOut nOut rest selected2 totalIn2

/-- `selectUTXOsFor` from the source. -/
def Sweeper.selectUTXOsFor (s : Sweeper) (targetOutSats : Int) (utxos : List UTXO)
    (dust : Int) (nFixedOutputs : Int) : Except String (List UTXO × Int × Int) :=
  let cands := s.filterUTXOs utxos dust
  if cands.length = 0 then .error "no spendable UTXOs after filters"
  else selectLoop s targetOutSats (nFixedOutputs + 1) cands [] 0

/-- `hexToByte` from the source (two ASCII hex digits to a byte value). -/
def hexToByte (hex : List Nat) : Except String Nat :=
  match hex with
  | [c0, c1] =>
    match (if 48 ≤ c0 ∧ c0 ≤ 57 then .ok (c0 - 48)
      else if 97 ≤ c0 ∧ c0 ≤ 102 then .ok (c0 - 97 + 10)
      else if 65 ≤ c0 ∧ c0 ≤ 70 then .ok (c0 - 65 + 10)
      else .error "invalid hex character" : Except String Nat) with
    | .error e => .error e
    | .ok v0 =>
      match (if 48 ≤ c1 ∧ c1 ≤ 57 then .ok (c1 - 48)
        else if 97 ≤ c1 ∧ c1 ≤ 102 then .ok (c1 - 97 + 10)
        else if 65 ≤ c1 ∧ c1 ≤ 70 then .ok (c1 - 65 + 10)
        else .error "invalid hex character" : Except String Nat) with
      | .error e => .error e
      | .ok v1 => .ok (v0 * 16 + v1)
  | _ => .error "invalid hex length"

/-- The digit-pair walk of `NewOutPointFromStr`. -/
def hexPairsToBytes : List Nat → Except String (List Nat)
  | [] => .ok []
  | c0 :: c1 :: rest =>
    match hexToByte [c0, c1] with
    | .error e => .error e
    | .ok b =>
      match hexPairsToBytes rest with
      | .error e => .error e
      | .ok bs => .ok (b :: bs)
  | _ => .error "invalid hex length"

/-- `NewOutPointFromStr` from the source (src/transaction.go, second
revision). -/
def NewOutPointFromStr (hashStr : List Nat) (index : Nat) :
    Except String OutPoint :=
  if hashStr.length ≠ 64 then .error "invalid hash length"
  else
    match hexPairsToBytes hashStr with
    | .error e => .error e
    | .ok hash => .ok ⟨hash, index⟩

/-- A PSBT input's signing metadata; only the witness UTXO is ever set by
the planner, the other BIP-174 fields stay at their empty initial values
and are omitted. -/
structure PSBTInput where
  WitnessUtxo : Option TxOut
deriving DecidableEq

/-- A PSBT output's metadata; never populated by the planner. -/
structure PSBTOutput where
deriving DecidableEq

/-- `PSBT` from the source. -/
structure PSBT where
  UnsignedTx : MsgTx
  Inputs : List PSBTInput
  Outputs : List PSBTOutput
deriving DecidableEq

/-- `NewPSBTFromUnsignedTx` from the source: empty metadata per input and
output. -/
def NewPSBTFromUnsignedTx (tx : MsgTx) : PSBT :=
  ⟨tx, tx.TxIn.map (fun _ => ⟨none⟩), tx.TxOut.map (fun _ => ⟨⟩)⟩

/-- `TransactionPlan` from the source (`ChangeIdxs` as naturals: Go output
indices are non-negative). -/
structure TransactionPlan where
  Inputs : List UTXO
  Outputs : List TxOutput
  FeeSats : Int
  RawTx : MsgTx
  PSBT : PSBT
  ChangeIdxs : List Nat
deriving DecidableEq

/-- The bytes of the test-mode change address `tb1test_change_address`. -/
def testChangeAddr : List Nat :=
  [116, 98, 49, 116, 101, 115, 116, 95, 99, 104, 97, 110, 103, 101, 95,
   97, 100, 100, 114, 101, 115, 115]

/-- `getChangeAddress` from the source. -/
def Sweeper.getChangeAddress (s : Sweeper) : Except String (List Nat) :=
  if s.testMode then .ok testChangeAddr
  else DeriveChangeAddress s.pubKey s.network

/-- The fixed script returned by `buildOutputScript` in test mode. -/
def testModeScript : List Nat :=
  [0x00, 0x14, 0x00, 0x01, 0x02, 0x03, 0x04, 0x05, 0x06, 0x07, 0x08, 0x09,
   0x0a, 0x0b, 0x0c, 0x0d, 0x0e, 0x0f, 0x10, 0x11, 0x12, 0x13]

/-- `buildOutputScript` from the source. -/
def Sweeper.buildOutputScript (s : Sweeper) (addr : List Nat) :
    Except String (List Nat) :=
  if s.testMode then .ok testModeScript
  else
    match DecodeAddress addr with
    | .error e => .error e
    | .ok decoded =>
      match decoded.addrType with
      | .P2WPKH => .ok (BuildP2WPKHScript decoded.data)
      | .P2TR => .ok (BuildP2TRScript decoded.data)

/-- The per-output validation loop of `Spend`: in non-test mode the address
must decode; every value must be positive. -/
def validateSpendOutputs (s : Sweeper) : List TxOutput → Except String Unit
  | [] => .ok ()
  | o :: rest =>
    match (if s.testMode then .ok () else
      match DecodeAddress o.Address with
      | .error e => .error ("invalid output address: " ++ e)
      | .ok _ => .ok () : Except String Unit) with
    | .error e => .error e
    | .ok _ =>
      if o.ValueSats ≤ 0 then .error "invalid output value"
      else validateSpendOutputs s rest

/-- The input-building loop of `buildTransaction` and `ConsolidateAll`:
each selected UTXO becomes a `TxIn` with empty scripts and max sequence. -/
def buildInputsGo : List UTXO → Except String (List TxIn)
  | [] => .ok []
  | u :: rest =>
    match NewOutPointFromStr u.TxID u.Vout with
    | .error e => .error ("invalid txid: " ++ e)
    | .ok op =>
      match buildInputsGo rest with
      | .error e => .error e
      | .ok tins => .ok (⟨op, [], [], 0xffffffff⟩ :: tins)

/-- The output-building loop of `buildTransaction`. -/
def buildTxOutsGo (s : Sweeper) : List TxOutput → Except String (List TxOut)
  | [] => .ok []
  | o :: rest =>
    match s.buildOutputScript o.Address with
    | .error e => .error ("bad output script: " ++ e)
    | .ok script =>
      match buildTxOutsGo s rest with
      | .error e => .error e
      | .ok touts => .ok (⟨o.ValueSats, script⟩ :: touts)

/-- The witness-UTXO loop of `buildTransaction` and `ConsolidateAll`: the
`i`-th PSBT input records the `i`-th selected UTXO's value and script. -/
def buildWitnessUtxos (s : Sweeper) : List UTXO → Except String (List PSBTInput)
  | [] => .ok []
  | u :: rest =>
    match s.buildOutputScript u.Address with
    | .error e => .error e
    | .ok script =>
      match buildWitnessUtxos s rest with
      | .error e => .error e
      | .ok wits => .ok (⟨some ⟨u.ValueSats, script⟩⟩ :: wits)

/-- The chain-depth update at the end of a successful plan: each
unconfirmed input's txid depth is incremented. -/
def bumpChainDepths : Sweeper → List UTXO → Sweeper
  | s, [] => s
  | s, u :: rest =>
    if ¬u.Confirmed then
      bumpChainDepths (s.setChainDepth u.TxID (s.getChainDepth u.TxID + 1)) rest
    else bumpChainDepths s rest

/-- `ValueSats += delta` at one index of an output list. -/
def bumpAt : List TxOutput → Nat → Int → List TxOutput
  | [], _, _ => []
  | o :: rest, 0, delta => { o with ValueSats := o.ValueSats + delta } :: rest
  | o :: rest, n + 1, delta => o :: bumpAt rest n delta

/-- The dust threshold of `buildTransaction`: the effective dust with the
`600` fallback when non-positive. -/
def buildDust (s : Sweeper) : Int :=
  let dust0 := effectiveDust s
  if dust0 ≤ 0 then 600 else dust0

/-- The change-output block of `buildTransaction` (lines 392-425): weighted
allocation, an even split (with the target-chunk part-count override and the
single-output fallback), or a single change output; returns the final
output list and the change indices. -/
def changePlan (s : Sweeper) (outputs : List TxOutput) (changeAddr : List Nat)
    (change dust : Int) : List TxOutput × List Nat :=
  if change > dust then
    if 0 < s.allocationByWeights.length then
      let ws := buildWeightedOutputs change s.allocationByWeights (max64 1 dust)
      (outputs ++ ws, (List.range ws.length).map (outputs.length + ·))
    else if s.changeSplitParts > 1 ∧ s.minChunkSats > 0 then
      let parts :=
        if s.targetChunkSats > 0 ∧ 2 ≤ change.tdiv s.targetChunkSats then
          change.tdiv s.targetChunkSats
        else s.changeSplitParts
      let chunks := (splitEven change parts (max64 s.minChunkSats dust)).filter
        (fun c => decide (c ≥ dust))
      if chunks.length = 0 then
        (outputs ++ [⟨changeAddr, change⟩], [outputs.length])
      else
        (outputs ++ chunks.map (fun c => ⟨changeAddr, c⟩),
         (List.range chunks.length).map (outputs.length + ·))
    else
      (outputs ++ [⟨changeAddr, change⟩], [outputs.length])
  else (outputs, [])

/-- `buildTransaction` from the source (src/unnamed/part_001 lines 359-506),
faithfully including its fee reconciliation: a lone change output is bumped
by `changeDelta` on top of the change it already carries, and with two or
more change indices `changeDelta` is left undistributed. -/
def Sweeper.buildTransaction (s : Sweeper) (utxos : List UTXO)
    (outputs : List TxOutput) (changeAddr : List Nat) :
    Except String TransactionPlan × Sweeper :=
  let dust := buildDust s
  let totalOut := outputsTotal outputs
  if totalOut ≤ 0 then (.error "outputs total must be > 0", s)
  else
    match s.selectUTXOsFor totalOut utxos dust (outputs.length : Int) with
    | .error e => (.error e, s)
    | .ok (selected, totalIn, estFee) =>
      let fc := changePlan s outputs changeAddr (totalIn - totalOut - estFee) dust
      let finalFee :=
        estimateTxVBytes (selected.length : Int) (fc.1.length : Int)
          * s.feeRateSatsVB
      let changeDelta := totalIn - totalOut - finalFee
      if changeDelta < 0 then
        (.error "final fee overshoots; add UTXOs or reduce outputs", s)
      else
        let finalOutputs2 :=
          if fc.2.length = 1 then bumpAt fc.1 (fc.2.headD 0) changeDelta
          else fc.1
        let finalFee2 := if fc.2.length = 0 then totalIn - totalOut else finalFee
        match buildInputsGo selected with
        | .error e => (.error e, s)
        | .ok tins =>
          match buildTxOutsGo s finalOutputs2 with
          | .error e => (.error e, s)
          | .ok touts =>
            let tx : MsgTx := ⟨2, tins, touts, 0⟩
            match buildWitnessUtxos s selected with
            | .error e => (.error e, s)
            | .ok wits =>
              let p0 := NewPSBTFromUnsignedTx tx
              (.ok ⟨selected, finalOutputs2, finalFee2, tx,
                { p0 with Inputs := wits }, fc.2⟩,
               bumpChainDepths s selected)

/-- `Spend` from the source. -/
def Sweeper.Spend (s : Sweeper) (outputs : List TxOutput) :
    Except String TransactionPlan × Sweeper :=
  if outputs.length = 0 then (.error "no outputs specified", s)
  else
    match validateSpendOutputs s outputs with
    | .error e => (.error e, s)
    | .ok _ =>
      match s.getChangeAddress with
      | .error e => (.error ("failed to get change address: " ++ e), s)
      | .ok changeAddr => s.buildTransaction s.indexedUTXOs outputs changeAddr

/-- `ConsolidateAll` from the source. -/
def Sweeper.ConsolidateAll (s : Sweeper) (destAddr : List Nat) :
    Except String TransactionPlan × Sweeper :=
  match (if s.testMode then .ok () else
    match DecodeAddress destAddr with
    | .error e => .error ("invalid destination address: " ++ e)
    | .ok _ => .ok () : Except String Unit) with
  | .error e => (.error e, s)
  | .ok _ =>
    let dust := effectiveDust s
    let cands := s.filterUTXOs s.indexedUTXOs dust
    if cands.length = 0 then (.error "no spendable UTXOs to consolidate", s)
    else
      let totalIn := (cands.map UTXO.ValueSats).sum
      let fee := estimateTxVBytes (cands.length : Int) 1 * s.feeRateSatsVB
      if totalIn ≤ fee ∨ totalIn - fee < dust then
        (.error "balance too low after fees for consolidation", s)
      else
        match buildInputsGo cands with
        | .error e => (.error e, s)
        | .ok tins =>
          match s.buildOutputScript destAddr with
          | .error e => (.error e, s)
          | .ok script =>
            let tx : MsgTx := ⟨2, tins, [⟨totalIn - fee, script⟩], 0⟩
            match buildWitnessUtxos s cands with
            | .error e => (.error e, s)
            | .ok wits =>
              let p0 := NewPSBTFromUnsignedTx tx
              (.ok ⟨cands, [⟨destAddr, totalIn - fee⟩], fee, tx,
                { p0 with Inputs := wits }, []⟩,
               bumpChainDepths s cands)

/-- `SpendEven` from the source (`zip` truncates to the shorter list,
matching the `limit` loop). -/
def Sweeper.SpendEven (s : Sweeper) (destAddrs : List (List Nat))
    (totalSats minChunk : Int) : Except String TransactionPlan × Sweeper :=
  if destAddrs.length = 0 then (.error "no destination addresses", s)
  else
    let chunks := splitEven totalSats (destAddrs.length : Int) minChunk
    if chunks.length = 0 then (.error "unable to build even chunks", s)
    else
      let outs := (destAddrs.zip chunks).map (fun p => TxOutput.mk p.1 p.2)
      s.Spend outs

/-- `SpendWeighted` from the source. -/
def Sweeper.SpendWeighted (s : Sweeper) (weights : List WeightedAddr)
    (totalSats minChunk : Int) : Except String TransactionPlan × Sweeper :=
  let outs := buildWeightedOutputs totalSats weights minChunk
  if outs.length = 0 then (.error "no outputs after weighting", s)
  else s.Spend outs

/-- `SpendToWallets` from the source. -/
def Sweeper.SpendToWallets (s : Sweeper) (totalSats minChunk : Int) :
    Except String TransactionPlan × Sweeper :=
  if s.allocationByWeights.length = 0 then
    (.error "no wallet weights configured", s)
  else
    let outs := buildWeightedOutputs totalSats s.allocationByWeights minChunk
    if outs.length = 0 then (.error "no outputs after weighting", s)
    else s.Spend outs

/-! # Theorems -/

/-! ## Shared arithmetic lemmas -/

theorem tdiv_nonneg_of_nonneg {a b : Int} (ha : 0 ≤ a) (hb : 0 ≤ b) :
    0 ≤ a.tdiv b := Int.tdiv_nonneg ha hb

theorem tdiv_add_tdiv_le {a b d : Int} (ha : 0 ≤ a) (hb : 0 ≤ b) (hd : 0 < d) :
    a.tdiv d + b.tdiv d ≤ (a + b).tdiv d := by
  rw [Int.tdiv_eq_ediv ha (le_of_lt hd), Int.tdiv_eq_ediv hb (le_of_lt hd),
    Int.tdiv_eq_ediv (by omega) (le_of_lt hd)]
  rw [Int.le_ediv_iff_mul_le hd, Int.add_mul]
  have h1 : a / d * d ≤ a := Int.ediv_mul_le a (by omega)
  have h2 : b / d * d ≤ b := Int.ediv_mul_le b (by omega)
  omega

theorem tdiv_le_tdiv_of_le {a b d : Int} (ha : 0 ≤ a) (hd : 0 < d) (h : a ≤ b) :
    a.tdiv d ≤ b.tdiv d := by
  rw [Int.tdiv_eq_ediv ha (le_of_lt hd), Int.tdiv_eq_ediv (le_trans ha h) (le_of_lt hd)]
  exact Int.ediv_le_ediv hd h

/-- Sum of the truncated shares over a weight list is bounded by the share of
the summed weights. -/
theorem sum_shares_le (total d : Int) (htotal : 0 ≤ total) (hd : 0 < d)
    (l : List WeightedAddr) (hw : ∀ w ∈ l, 0 ≤ w.WeightBP) :
    (l.map (fun w => (total * w.WeightBP).tdiv d)).sum
      ≤ (total * (l.map WeightedAddr.WeightBP).sum).tdiv d := by
  induction l with
  | nil => simp
  | cons w rest ih =>
    simp only [List.map_cons, List.sum_cons]
    have hw0 : 0 ≤ w.WeightBP := hw w (by simp)
    have hrest : ∀ x ∈ rest, 0 ≤ x.WeightBP := fun x hx => hw x (by simp [hx])
    have hsumrest : 0 ≤ (rest.map WeightedAddr.WeightBP).sum := by
      apply List.sum_nonneg; intro x hx
      obtain ⟨y, hy, rfl⟩ := List.mem_map.mp hx
      exact hrest y hy
    calc (total * w.WeightBP).tdiv d
            + (rest.map (fun x => (total * x.WeightBP).tdiv d)).sum
        ≤ (total * w.WeightBP).tdiv d
            + (total * (rest.map WeightedAddr.WeightBP).sum).tdiv d := by
          exact add_le_add_left (ih hrest) _
      _ ≤ (total * w.WeightBP + total * (rest.map WeightedAddr.WeightBP).sum).tdiv d := by
          exact tdiv_add_tdiv_le (by positivity) (by positivity) hd
      _ = (total * (w.WeightBP + (rest.map WeightedAddr.WeightBP).sum)).tdiv d := by
          ring_nf

/-! ## C8: weighted sum preservation -/

/-- The sum of the values produced by `buildWeightedGo` plus the incoming
accumulator is exactly `total`, provided: the segment `rest` ends at index
`last`, every weight is non-negative, every pre-last share is non-negative,
and the accumulator plus the pre-last shares stays within `total`. -/
theorem buildWeightedGo_sum (total d : Int) (hd : 0 < d) (htotal : 0 ≤ total)
    (last : Nat) :
    ∀ (rest : List WeightedAddr) (i : Nat) (acc : Int),
      rest ≠ [] →
      i + rest.length = last + 1 →
      (∀ w ∈ rest, 0 ≤ w.WeightBP) →
      0 ≤ acc →
      acc + (rest.dropLast.map (fun w => (total * w.WeightBP).tdiv d)).sum ≤ total →
      outputsTotal (buildWeightedGo total d 0 last i acc rest) = total - acc := by
  intro rest
  induction rest with
  | nil => intro i acc h; exact absurd rfl h
  | cons w rest ih =>
    intro i acc _ hlen hw hacc hbound
    match rest, ih with
    | [], _ =>
      -- `w` is the final entry: its share is `total - acc`.
      have hi : i = last := by simpa using hlen
      have hshare : (0 : Int) ≤ total - acc := by
        simp only [List.dropLast_single, List.map_nil, List.sum_nil, add_zero] at hbound
        omega
      simp only [buildWeightedGo, hi, eq_self_iff_true, if_true, ge_iff_le]
      rw [if_pos hshare]
      simp [outputsTotal, buildWeightedGo]
    | w' :: rest', ih =>
      -- a pre-last entry: its truncated share is non-negative, hence emitted.
      have hne : i ≠ last := by
        simp only [List.length_cons] at hlen; omega
      have hunf : buildWeightedGo total d 0 last i acc (w :: w' :: rest')
          = if (if i = last then total - acc else (total * w.WeightBP).tdiv d) ≥ 0
            then { Address := w.Address,
                   ValueSats := if i = last then total - acc
                     else (total * w.WeightBP).tdiv d } ::
              buildWeightedGo total d 0 last (i + 1)
                (acc + (if i = last then total - acc else (total * w.WeightBP).tdiv d))
                (w' :: rest')
            else buildWeightedGo total d 0 last (i + 1) acc (w' :: rest') := rfl
      rw [hunf]
      simp only [if_neg hne]
      have hw0 : 0 ≤ w.WeightBP := hw w (by simp)
      have hshare0 : 0 ≤ (total * w.WeightBP).tdiv d :=
        tdiv_nonneg_of_nonneg (by positivity) (le_of_lt hd)
      rw [if_pos hshare0]
      have hdrop : (w :: w' :: rest').dropLast = w :: (w' :: rest').dropLast := by
        simp
      rw [hdrop, List.map_cons, List.sum_cons] at hbound
      have := ih (i + 1) (acc + (total * w.WeightBP).tdiv d)
        (by simp) (by simp only [List.length_cons] at hlen ⊢; omega)
        (fun x hx => hw x (by simp [List.mem_cons] at hx ⊢; tauto))
        (by positivity) (by omega)
      simp only [outputsTotal, List.map_cons, List.sum_cons] at this ⊢
      omega

/-- **C8 (amended).** For every `total ≥ 0` and every weight list whose
weights are all non-negative with at least one positive weight, the outputs
of `buildWeightedOutputs total ws 0` sum exactly to `total`. -/
theorem C8_buildWeightedOutputs_sum_amended (total : Int) (ws : List WeightedAddr)
    (htotal : 0 ≤ total)
    (hnn : ∀ w ∈ ws, 0 ≤ w.WeightBP)
    (hpos : ∃ w ∈ ws, 0 < w.WeightBP) :
    outputsTotal (buildWeightedOutputs total ws 0) = total := by
  obtain ⟨w0, hw0mem, hw0⟩ := hpos
  have hne : ws ≠ [] := by rintro rfl; simp at hw0mem
  have hsum : 0 < (ws.map WeightedAddr.WeightBP).sum := by
    have h1 : w0.WeightBP ≤ (ws.map WeightedAddr.WeightBP).sum := by
      apply List.single_le_sum _ _ (List.mem_map.mpr ⟨w0, hw0mem, rfl⟩)
      intro x hx
      obtain ⟨y, hy, rfl⟩ := List.mem_map.mp hx
      exact hnn y hy
    omega
  unfold buildWeightedOutputs
  rcases eq_or_lt_of_le htotal with heq | hlt
  · rw [if_pos (Or.inr (by omega))]
    simp [outputsTotal, ← heq]
  · rw [if_neg (by
        rw [not_or]
        exact ⟨fun h => hne (List.length_eq_zero.mp h), by omega⟩),
      if_neg (by omega)]
    have hgo := buildWeightedGo_sum total ((ws.map WeightedAddr.WeightBP).sum)
      hsum htotal (ws.length - 1) ws 0 0 hne
      (by have := List.length_pos.mpr hne; omega) hnn le_rfl ?_
    · simpa using hgo
    · simp only [zero_add]
      calc (ws.dropLast.map (fun w => (total * w.WeightBP).tdiv _)).sum
          ≤ (total * (ws.dropLast.map WeightedAddr.WeightBP).sum).tdiv
              ((ws.map WeightedAddr.WeightBP).sum) := by
            apply sum_shares_le _ _ htotal hsum
            intro x hx; exact hnn x (List.dropLast_subset _ hx)
        _ ≤ (total * (ws.map WeightedAddr.WeightBP).sum).tdiv
              ((ws.map WeightedAddr.WeightBP).sum) := by
            refine tdiv_le_tdiv_of_le ?_ hsum ?_
            · apply mul_nonneg htotal
              apply List.sum_nonneg; intro x hx
              obtain ⟨y, hy, rfl⟩ := List.mem_map.mp hx
              exact hnn y (List.dropLast_subset _ hy)
            · apply mul_le_mul_of_nonneg_left _ htotal
              -- the weights sum over `dropLast` is at most the full sum
              have hsplit : ws.map WeightedAddr.WeightBP
                  = ws.dropLast.map WeightedAddr.WeightBP
                    ++ (ws.getLast hne).WeightBP :: [] := by
                conv_lhs => rw [← List.dropLast_append_getLast hne]
                simp
              rw [hsplit, List.sum_append]
              have := hnn (ws.getLast hne) (List.getLast_mem hne)
              simp; omega
        _ ≤ total := by
            rw [Int.tdiv_eq_ediv (by positivity) (le_of_lt hsum),
              Int.mul_ediv_cancel _ (by omega)]

/-- Witness for C8's amended theorem at a concrete input. -/
theorem C8_buildWeightedOutputs_sum_amended_witness :
    outputsTotal (buildWeightedOutputs 100000 [⟨[65], 7000⟩, ⟨[66], 3000⟩] 0) = 100000 :=
  C8_buildWeightedOutputs_sum_amended 100000 [⟨[65], 7000⟩, ⟨[66], 3000⟩]
    (by decide) (by decide)
    ⟨⟨[65], 7000⟩, by decide⟩

/-- **C8 (counterexample).** With `total = 100` and weights `[200, -100]`
(which contain a positive weight, as the claim requires), the produced
outputs sum to `200`, not to `total = 100`: the non-final share `200`
overshoots and the final share `100 - 200 = -100` is dropped. -/
theorem C8_buildWeightedOutputs_counterexample :
    outputsTotal (buildWeightedOutputs 100 [⟨[65], 200⟩, ⟨[66], -100⟩] 0) = 200 ∧
    (200 : Int) ≠ 100 := by
  constructor
  · rfl
  · decide

/-! ## C6: Bech32Decode error behaviour -/

set_option maxHeartbeats 1000000 in
/-- Inversion on a successful `Bech32Decode`: every guard along the way is
false and the result has the take/drop shape of the source. -/
theorem Bech32Decode_ok_inversion {bech hrp d : List Nat}
    (h : Bech32Decode bech = .ok (hrp, d)) :
    ¬(bech.length < 8 ∨ bech.length > 90) ∧
    ¬((bech.any fun c => decide (97 ≤ c ∧ c ≤ 122)) = true ∧
      (bech.any fun c => decide (65 ≤ c ∧ c ≤ 90)) = true) ∧
    ¬(sepPos (toLowerGo bech) < 1 ∨
      sepPos (toLowerGo bech) > ((toLowerGo bech).length : Int) - 7) ∧
    ¬((((toLowerGo bech).drop ((sepPos (toLowerGo bech)).toNat + 1)).any
        (fun c => (charsetMap c).isNone)) = true) ∧
    ¬((((toLowerGo bech).drop ((sepPos (toLowerGo bech)).toNat + 1)).map
        (fun c => (charsetMap c).getD 0)).length < 7) ∧
    (bech32VerifyChecksum
        ((toLowerGo bech).take (sepPos (toLowerGo bech)).toNat)
        (((toLowerGo bech).drop ((sepPos (toLowerGo bech)).toNat + 1)).map
          (fun c => (charsetMap c).getD 0))
        (if (((toLowerGo bech).drop ((sepPos (toLowerGo bech)).toNat + 1)).map
              (fun c => (charsetMap c).getD 0)).headD 0 = 0 then 1 else 0x2bc830a3))
      = true ∧
    hrp = (toLowerGo bech).take (sepPos (toLowerGo bech)).toNat ∧
    d = (((toLowerGo bech).drop ((sepPos (toLowerGo bech)).toNat + 1)).map
          (fun c => (charsetMap c).getD 0)).take
        ((((toLowerGo bech).drop ((sepPos (toLowerGo bech)).toNat + 1)).map
          (fun c => (charsetMap c).getD 0)).length - 6) := by
  simp only [Bech32Decode] at h
  by_cases h1 : (bech.length < 8 ∨ bech.length > 90)
  · rw [if_pos h1] at h
    exact absurd h (by simp)
  rw [if_neg h1] at h
  by_cases h2 : ((bech.any fun c => decide (97 ≤ c ∧ c ≤ 122)) = true ∧ (bech.any fun c => decide (65 ≤ c ∧ c ≤ 90)) = true)
  · rw [if_pos h2] at h
    exact absurd h (by simp)
  rw [if_neg h2] at h
  by_cases h3 : ((sepPos (toLowerGo bech)) < 1 ∨ (sepPos (toLowerGo bech)) > ((toLowerGo bech).length : Int) - 7)
  · rw [if_pos h3] at h
    exact absurd h (by simp)
  rw [if_neg h3] at h
  by_cases h4 : ((List.take (sepPos (toLowerGo bech)).toNat (toLowerGo bech)).length = 0)
  · rw [if_pos h4] at h
    exact absurd h (by simp)
  rw [if_neg h4] at h
  by_cases h5 : (((List.take (sepPos (toLowerGo bech)).toNat (toLowerGo bech)).any fun c => decide (c < 33 ∨ c > 126)) = true)
  · rw [if_pos h5] at h
    exact absurd h (by simp)
  rw [if_neg h5] at h
  by_cases h6 : (((List.drop ((sepPos (toLowerGo bech)).toNat + 1) (toLowerGo bech)).any fun c => (charsetMap c).isNone) = true)
  · rw [if_pos h6] at h
    exact absurd h (by simp)
  rw [if_neg h6] at h
  by_cases h7 : ((List.map (fun c => (charsetMap c).getD 0) (List.drop ((sepPos (toLowerGo bech)).toNat + 1) (toLowerGo bech))).length < 7)
  · rw [if_pos h7] at h
    exact absurd h (by simp)
  rw [if_neg h7] at h
  by_cases h8 : ((List.map (fun c => (charsetMap c).getD 0) (List.drop ((sepPos (toLowerGo bech)).toNat + 1) (toLowerGo bech))).headD 0 > 31)
  · rw [if_pos h8] at h
    exact absurd h (by simp)
  rw [if_neg h8] at h
  by_cases h9 : (bech32VerifyChecksum (List.take (sepPos (toLowerGo bech)).toNat (toLowerGo bech)) (List.map (fun c => (charsetMap c).getD 0) (List.drop ((sepPos (toLowerGo bech)).toNat + 1) (toLowerGo bech))) (if (List.map (fun c => (charsetMap c).getD 0) (List.drop ((sepPos (toLowerGo bech)).toNat + 1) (toLowerGo bech))).headD 0 = 0 then 1 else 0x2bc830a3) = false)
  · rw [if_pos h9] at h
    exact absurd h (by simp)
  rw [if_neg h9] at h
  rw [Except.ok.injEq, Prod.mk.injEq] at h
  refine ⟨h1, h2, h3, h6, h7, ?_, h.1.symm, h.2.symm⟩
  simpa using h9

/-- **C6.** `Bech32Decode` errors on: length outside `[8, 90]`; mixed case;
first separator `'1'` at position `< 1` or within the final 6 symbols; a data
symbol outside the Bech32 charset; fewer than 7 data symbols; a checksum that
does not verify against the constant selected from the version symbol
(`1` when the first data value is `0`, `0x2BC830A3` otherwise).  On success
it returns the HRP together with the data values including the version and
excluding the 6 checksum symbols. -/
theorem C6_Bech32Decode_errors (bech : List Nat) :
    ((bech.length < 8 ∨ bech.length > 90) → isErr (Bech32Decode bech) = true) ∧
    (((bech.any fun c => decide (97 ≤ c ∧ c ≤ 122)) = true ∧
      (bech.any fun c => decide (65 ≤ c ∧ c ≤ 90)) = true) →
      isErr (Bech32Decode bech) = true) ∧
    ((sepPos (toLowerGo bech) < 1 ∨
      sepPos (toLowerGo bech) > (bech.length : Int) - 7) →
      isErr (Bech32Decode bech) = true) ∧
    ((∃ c ∈ (toLowerGo bech).drop ((sepPos (toLowerGo bech)).toNat + 1),
        charsetMap c = none) → isErr (Bech32Decode bech) = true) ∧
    ((((toLowerGo bech).drop ((sepPos (toLowerGo bech)).toNat + 1)).length < 7 →
      isErr (Bech32Decode bech) = true)) ∧
    ((bech32VerifyChecksum
        ((toLowerGo bech).take (sepPos (toLowerGo bech)).toNat)
        (((toLowerGo bech).drop ((sepPos (toLowerGo bech)).toNat + 1)).map
          (fun c => (charsetMap c).getD 0))
        (if (((toLowerGo bech).drop ((sepPos (toLowerGo bech)).toNat + 1)).map
              (fun c => (charsetMap c).getD 0)).headD 0 = 0 then 1 else 0x2bc830a3))
        = false → isErr (Bech32Decode bech) = true) ∧
    (∀ hrp d, Bech32Decode bech = .ok (hrp, d) →
      hrp = (toLowerGo bech).take (sepPos (toLowerGo bech)).toNat ∧
      d = (((toLowerGo bech).drop ((sepPos (toLowerGo bech)).toNat + 1)).map
            (fun c => (charsetMap c).getD 0)).take
          ((((toLowerGo bech).drop ((sepPos (toLowerGo bech)).toNat + 1)).map
            (fun c => (charsetMap c).getD 0)).length - 6)) := by
  have hlen : (toLowerGo bech).length = bech.length := by simp [toLowerGo]
  have herr : ∀ {P : Prop},
      (∀ hrp d, Bech32Decode bech = .ok (hrp, d) → P) → ¬P →
      isErr (Bech32Decode bech) = true := by
    intro P hinv hnp
    cases hE : Bech32Decode bech with
    | error e => rfl
    | ok p =>
      obtain ⟨hrp, d⟩ := p
      exact absurd (hinv hrp d hE) hnp
  refine ⟨?_, ?_, ?_, ?_, ?_, ?_, ?_⟩
  · intro h
    exact herr (fun hrp d hE => (Bech32Decode_ok_inversion hE).1) (fun hc => hc h)
  · intro h
    exact herr (fun hrp d hE => (Bech32Decode_ok_inversion hE).2.1) (fun hc => hc h)
  · intro h
    rw [← hlen] at h
    exact herr (fun hrp d hE => (Bech32Decode_ok_inversion hE).2.2.1) (fun hc => hc h)
  · intro h
    refine herr (fun hrp d hE => (Bech32Decode_ok_inversion hE).2.2.2.1) (fun hc => hc ?_)
    rw [List.any_eq_true]
    obtain ⟨c, hcmem, hcnone⟩ := h
    exact ⟨c, hcmem, by simp [hcnone]⟩
  · intro h
    refine herr (fun hrp d hE => (Bech32Decode_ok_inversion hE).2.2.2.2.1)
      (fun hc => hc ?_)
    simpa using h
  · intro h
    refine herr (fun hrp d hE => (Bech32Decode_ok_inversion hE).2.2.2.2.2.1)
      (fun hc => ?_)
    rw [h] at hc
    exact Bool.false_ne_true hc
  · intro hrp d hE
    exact ⟨(Bech32Decode_ok_inversion hE).2.2.2.2.2.2.1,
      (Bech32Decode_ok_inversion hE).2.2.2.2.2.2.2⟩

/-! ## C5 support: bit-group repacking round trip -/

theorem and_31_eq_mod (x : Nat) : x &&& 31 = x % 32 := by
  have := Nat.and_pow_two_sub_one_eq_mod x 5
  norm_num at this; exact this

theorem and_255_eq_mod (x : Nat) : x &&& 255 = x % 256 := by
  have := Nat.and_pow_two_sub_one_eq_mod x 8
  norm_num at this; exact this

theorem and_4095_eq_mod (x : Nat) : x &&& 4095 = x % 4096 := by
  have := Nat.and_pow_two_sub_one_eq_mod x 12
  norm_num at this; exact this

theorem shiftLeft_lor_eq_add {k : Nat} (a : Nat) {b : Nat} (h : b < 2 ^ k) :
    (a <<< k) ||| b = a * 2 ^ k + b := by
  rw [Nat.shiftLeft_eq, Nat.mul_comm, ← Nat.mul_add_lt_is_or h a, Nat.mul_comm]

theorem and31_lt (x : Nat) : x &&& 31 < 32 := by
  rw [and_31_eq_mod]; omega

theorem and31_shiftRight5 (x : Nat) : (x &&& 31) >>> 5 = 0 := by
  rw [Nat.shiftRight_eq_div_pow]
  have := and31_lt x
  omega

theorem drain5_8 (a : Nat) : drainGroups 5 a 8 = ([(a >>> 3) &&& 31], 3) := by
  rw [drainGroups]; norm_num; rw [drainGroups]; norm_num

theorem drain5_9 (a : Nat) : drainGroups 5 a 9 = ([(a >>> 4) &&& 31], 4) := by
  rw [drainGroups]; norm_num; rw [drainGroups]; norm_num

theorem drain5_10 (a : Nat) :
    drainGroups 5 a 10 = ([(a >>> 5) &&& 31, (a >>> 0) &&& 31], 0) := by
  rw [drainGroups]; norm_num; rw [drainGroups]; norm_num; rw [drainGroups]; norm_num

theorem drain5_11 (a : Nat) :
    drainGroups 5 a 11 = ([(a >>> 6) &&& 31, (a >>> 1) &&& 31], 1) := by
  rw [drainGroups]; norm_num; rw [drainGroups]; norm_num; rw [drainGroups]; norm_num

theorem drain5_12 (a : Nat) :
    drainGroups 5 a 12 = ([(a >>> 7) &&& 31, (a >>> 2) &&& 31], 2) := by
  rw [drainGroups]; norm_num; rw [drainGroups]; norm_num; rw [drainGroups]; norm_num

theorem drain8_5 (a : Nat) : drainGroups 8 a 5 = ([], 5) := by
  rw [drainGroups]; norm_num

theorem drain8_8 (a : Nat) : drainGroups 8 a 8 = ([(a >>> 0) &&& 255], 0) := by
  rw [drainGroups]; norm_num; rw [drainGroups]; norm_num

theorem drain8_9 (a : Nat) : drainGroups 8 a 9 = ([(a >>> 1) &&& 255], 1) := by
  rw [drainGroups]; norm_num; rw [drainGroups]; norm_num

theorem drain8_10 (a : Nat) : drainGroups 8 a 10 = ([(a >>> 2) &&& 255], 2) := by
  rw [drainGroups]; norm_num; rw [drainGroups]; norm_num

theorem drain8_11 (a : Nat) : drainGroups 8 a 11 = ([(a >>> 3) &&& 255], 3) := by
  rw [drainGroups]; norm_num; rw [drainGroups]; norm_num

theorem drain8_12 (a : Nat) : drainGroups 8 a 12 = ([(a >>> 4) &&& 255], 4) := by
  rw [drainGroups]; norm_num; rw [drainGroups]; norm_num

/-- `convert8to5Go` is `procEnc` followed by the final padding group. -/
theorem convert8to5Go_eq_procEnc (l : List Nat) : ∀ acc bits,
    convert8to5Go acc bits l =
      (procEnc acc bits l).1 ++
        (if (procEnc acc bits l).2.2 > 0 then
          [((procEnc acc bits l).2.1 <<< (5 - (procEnc acc bits l).2.2)) &&& 31]
        else []) := by
  induction l with
  | nil => intro acc bits; simp [convert8to5Go, procEnc]
  | cons b rest ih =>
    intro acc bits
    simp only [convert8to5Go, procEnc]
    rw [ih]
    simp [List.append_assoc]

/-- `convertBitsGo 5 8` is `procDec` followed by the `pad = false`
end-of-input check. -/
theorem convertBitsGo_eq_procDec (l : List Nat) : ∀ acc bits,
    convertBitsGo 5 8 255 4095 false acc bits l =
      (match procDec acc bits l with
      | .error e => .error e
      | .ok (out, a, b) =>
          if b ≥ 5 ∨ ((a <<< (8 - b)) &&& 255) ≠ 0 then .error "invalid padding"
          else .ok out) := by
  induction l with
  | nil =>
    intro acc bits
    simp [convertBitsGo, procDec]
  | cons v rest ih =>
    intro acc bits
    simp only [convertBitsGo, procDec]
    by_cases hv : v >>> 5 ≠ 0
    · rw [if_pos hv, if_pos hv]
    · rw [if_neg hv, if_neg hv]
      rw [ih]
      rcases hrec : procDec (((acc <<< 5) ||| v) &&& 4095)
          (drainGroups 8 (((acc <<< 5) ||| v) &&& 4095) (bits + 5)).2 rest with e | ⟨out, a, b⟩
      · rfl
      · simp only []
        by_cases hb : b ≥ 5 ∨ ((a <<< (8 - b)) &&& 255) ≠ 0
        · rw [if_pos hb, if_pos hb]
        · rw [if_neg hb, if_neg hb]

/-- State-threading of `procDec` over an append. -/
theorem procDec_append (l1 : List Nat) : ∀ l2 acc bits,
    procDec acc bits (l1 ++ l2) =
      (match procDec acc bits l1 with
      | .error e => .error e
      | .ok (o1, a, b) =>
          match procDec a b l2 with
          | .error e => .error e
          | .ok (o2, a2, b2) => .ok (o1 ++ o2, a2, b2)) := by
  induction l1 with
  | nil =>
    intro l2 acc bits
    simp only [List.nil_append, procDec]
    rcases procDec acc bits l2 with e | ⟨o2, a2, b2⟩ <;> rfl
  | cons v rest ih =>
    intro l2 acc bits
    simp only [List.cons_append, procDec, List.append_eq]
    by_cases hv : v >>> 5 ≠ 0
    · rw [if_pos hv, if_pos hv]
    · rw [if_neg hv, if_neg hv]
      rw [ih]
      rcases hrec : procDec (((acc <<< 5) ||| v) &&& 4095)
          (drainGroups 8 (((acc <<< 5) ||| v) &&& 4095) (bits + 5)).2 rest with e | ⟨o1, a, b⟩
      · rfl
      · rcases hl2 : procDec a b l2 with e | ⟨o2, a2, b2⟩ <;>
          simp [hl2, List.append_assoc]

theorem drain8_6 (a : Nat) : drainGroups 8 a 6 = ([], 6) := by
  rw [drainGroups]; norm_num

theorem drain8_7 (a : Nat) : drainGroups 8 a 7 = ([], 7) := by
  rw [drainGroups]; norm_num

theorem shiftLeft5_lor_mod32 (a x : Nat) :
    (a <<< 5) ||| (x % 32) = a * 32 + x % 32 := by
  have := @shiftLeft_lor_eq_add 5 a (x % 32) (by norm_num; omega)
  simpa using this

set_option maxHeartbeats 2000000 in
/-- One byte through the encoder, then its emitted groups through the
decoder: the invariant is preserved, the groups are 5-bit, and exactly the
completed bytes come out. -/
theorem encDec_step {b : Nat} (hb : b < 256) {e d ea da : Nat}
    (hinv : EncDecInv e d ea da)
    {gs : List Nat} {e2 : Nat}
    (hgs : drainGroups 5 ((ea <<< 8) ||| b) (e + 8) = (gs, e2)) :
    ∃ outs da2 d2,
      procDec da d gs = .ok (outs, da2, d2) ∧
      EncDecInv e2 d2 ((ea <<< 8) ||| b) da2 ∧
      e2 = (e + 3) % 5 ∧
      5 * gs.length + e2 = e + 8 ∧
      (∀ g ∈ gs, g < 32) ∧
      outs ++ (if e2 = 0 then [] else [((ea <<< 8) ||| b) % 256]) =
        (if e = 0 then [] else [ea % 256]) ++ [b] := by
  obtain ⟨he5, hd, hrel⟩ := hinv
  have hacc : (ea <<< 8) ||| b = ea * 256 + b := by
    have := @shiftLeft_lor_eq_add 8 ea b (by norm_num; omega)
    simpa using this
  interval_cases e
  · -- e = 0, d = 0
    norm_num at hd
    subst hd
    rw [drain5_8] at hgs
    cases hgs
    have hPD : procDec da 0 [((((ea <<< 8) ||| b) >>> 3) &&& 31)] =
        .ok ([], (((da <<< 5) ||| ((((ea <<< 8) ||| b) >>> 3) &&& 31)) &&& 4095), 5) := by
      simp [procDec, and31_shiftRight5, drain8_5, drain8_6, drain8_7, drain8_8,
        drain8_9, drain8_10, drain8_11, drain8_12]
    refine ⟨_, _, _, hPD, ⟨by norm_num, by norm_num, ?_⟩, by norm_num,
      by norm_num, ?_, ?_⟩
    · -- decoder holds the high bits of the pending byte
      intro hne
      simp only [hacc, and_4095_eq_mod, and_31_eq_mod, and_255_eq_mod,
        Nat.shiftRight_eq_div_pow, shiftLeft5_lor_mod32]
      norm_num
      omega
    · -- every emitted group is a 5-bit value
      intro gg hgg
      simp at hgg
      rw [hgg, and_31_eq_mod]
      omega
    · -- the completed bytes
      norm_num [List.cons.injEq]
      simp only [hacc, and_4095_eq_mod, and_31_eq_mod, and_255_eq_mod,
        Nat.shiftRight_eq_div_pow, shiftLeft5_lor_mod32]
      norm_num
      omega
  · -- e = 1, d = 7
    norm_num at hd
    subst hd
    norm_num at hrel
    rw [drain5_9] at hgs
    cases hgs
    have hPD : procDec da 7 [((((ea <<< 8) ||| b) >>> 4) &&& 31)] =
        .ok ([(((((da <<< 5) ||| ((((ea <<< 8) ||| b) >>> 4) &&& 31)) &&& 4095) >>> 4) &&& 255)], (((da <<< 5) ||| ((((ea <<< 8) ||| b) >>> 4) &&& 31)) &&& 4095), 4) := by
      simp [procDec, and31_shiftRight5, drain8_5, drain8_6, drain8_7, drain8_8,
        drain8_9, drain8_10, drain8_11, drain8_12]
    refine ⟨_, _, _, hPD, ⟨by norm_num, by norm_num, ?_⟩, by norm_num,
      by norm_num, ?_, ?_⟩
    · -- decoder holds the high bits of the pending byte
      intro hne
      simp only [hacc, and_4095_eq_mod, and_31_eq_mod, and_255_eq_mod,
        Nat.shiftRight_eq_div_pow, shiftLeft5_lor_mod32]
      norm_num
      omega
    · -- every emitted group is a 5-bit value
      intro gg hgg
      simp at hgg
      rw [hgg, and_31_eq_mod]
      omega
    · -- the completed bytes
      norm_num [List.cons.injEq]
      simp only [hacc, and_4095_eq_mod, and_31_eq_mod, and_255_eq_mod,
        Nat.shiftRight_eq_div_pow, shiftLeft5_lor_mod32]
      norm_num
      omega
  · -- e = 2, d = 6
    norm_num at hd
    subst hd
    norm_num at hrel
    rw [drain5_10] at hgs
    cases hgs
    have hPD : procDec da 6 [((((ea <<< 8) ||| b) >>> 5) &&& 31), ((((ea <<< 8) ||| b) >>> 0) &&& 31)] =
        .ok ([(((((da <<< 5) ||| ((((ea <<< 8) ||| b) >>> 5) &&& 31)) &&& 4095) >>> 3) &&& 255), ((((((((da <<< 5) ||| ((((ea <<< 8) ||| b) >>> 5) &&& 31)) &&& 4095) <<< 5) ||| ((((ea <<< 8) ||| b) >>> 0) &&& 31)) &&& 4095) >>> 0) &&& 255)], ((((((da <<< 5) ||| ((((ea <<< 8) ||| b) >>> 5) &&& 31)) &&& 4095) <<< 5) ||| ((((ea <<< 8) ||| b) >>> 0) &&& 31)) &&& 4095), 0) := by
      simp [procDec, and31_shiftRight5, drain8_5, drain8_6, drain8_7, drain8_8,
        drain8_9, drain8_10, drain8_11, drain8_12]
    refine ⟨_, _, _, hPD, ⟨by norm_num, by norm_num, ?_⟩, by norm_num,
      by norm_num, ?_, ?_⟩
    · -- decoder holds the high bits of the pending byte
      intro hc
      exact absurd rfl hc
    · -- every emitted group is a 5-bit value
      intro gg hgg
      simp at hgg
      rcases hgg with hgg | hgg <;> rw [hgg, and_31_eq_mod] <;> omega
    · -- the completed bytes
      norm_num [List.cons.injEq]
      simp only [hacc, and_4095_eq_mod, and_31_eq_mod, and_255_eq_mod,
        Nat.shiftRight_eq_div_pow, shiftLeft5_lor_mod32]
      norm_num
      omega
  · -- e = 3, d = 5
    norm_num at hd
    subst hd
    norm_num at hrel
    rw [drain5_11] at hgs
    cases hgs
    have hPD : procDec da 5 [((((ea <<< 8) ||| b) >>> 6) &&& 31), ((((ea <<< 8) ||| b) >>> 1) &&& 31)] =
        .ok ([(((((da <<< 5) ||| ((((ea <<< 8) ||| b) >>> 6) &&& 31)) &&& 4095) >>> 2) &&& 255)], ((((((da <<< 5) ||| ((((ea <<< 8) ||| b) >>> 6) &&& 31)) &&& 4095) <<< 5) ||| ((((ea <<< 8) ||| b) >>> 1) &&& 31)) &&& 4095), 7) := by
      simp [procDec, and31_shiftRight5, drain8_5, drain8_6, drain8_7, drain8_8,
        drain8_9, drain8_10, drain8_11, drain8_12]
    refine ⟨_, _, _, hPD, ⟨by norm_num, by norm_num, ?_⟩, by norm_num,
      by norm_num, ?_, ?_⟩
    · -- decoder holds the high bits of the pending byte
      intro hne
      simp only [hacc, and_4095_eq_mod, and_31_eq_mod, and_255_eq_mod,
        Nat.shiftRight_eq_div_pow, shiftLeft5_lor_mod32]
      norm_num
      omega
    · -- every emitted group is a 5-bit value
      intro gg hgg
      simp at hgg
      rcases hgg with hgg | hgg <;> rw [hgg, and_31_eq_mod] <;> omega
    · -- the completed bytes
      norm_num [List.cons.injEq]
      simp only [hacc, and_4095_eq_mod, and_31_eq_mod, and_255_eq_mod,
        Nat.shiftRight_eq_div_pow, shiftLeft5_lor_mod32]
      norm_num
      omega
  · -- e = 4, d = 4
    norm_num at hd
    subst hd
    norm_num at hrel
    rw [drain5_12] at hgs
    cases hgs
    have hPD : procDec da 4 [((((ea <<< 8) ||| b) >>> 7) &&& 31), ((((ea <<< 8) ||| b) >>> 2) &&& 31)] =
        .ok ([(((((da <<< 5) ||| ((((ea <<< 8) ||| b) >>> 7) &&& 31)) &&& 4095) >>> 1) &&& 255)], ((((((da <<< 5) ||| ((((ea <<< 8) ||| b) >>> 7) &&& 31)) &&& 4095) <<< 5) ||| ((((ea <<< 8) ||| b) >>> 2) &&& 31)) &&& 4095), 6) := by
      simp [procDec, and31_shiftRight5, drain8_5, drain8_6, drain8_7, drain8_8,
        drain8_9, drain8_10, drain8_11, drain8_12]
    refine ⟨_, _, _, hPD, ⟨by norm_num, by norm_num, ?_⟩, by norm_num,
      by norm_num, ?_, ?_⟩
    · -- decoder holds the high bits of the pending byte
      intro hne
      simp only [hacc, and_4095_eq_mod, and_31_eq_mod, and_255_eq_mod,
        Nat.shiftRight_eq_div_pow, shiftLeft5_lor_mod32]
      norm_num
      omega
    · -- every emitted group is a 5-bit value
      intro gg hgg
      simp at hgg
      rcases hgg with hgg | hgg <;> rw [hgg, and_31_eq_mod] <;> omega
    · -- the completed bytes
      norm_num [List.cons.injEq]
      simp only [hacc, and_4095_eq_mod, and_31_eq_mod, and_255_eq_mod,
        Nat.shiftRight_eq_div_pow, shiftLeft5_lor_mod32]
      norm_num
      omega

/-- The encoder/decoder simulation over a whole byte list: feeding the
decoder every group the encoder emits recovers every completed byte and
leaves the two machines in related states. -/
theorem encDec_main (bs : List Nat) : ∀ e d ea da,
    (∀ b ∈ bs, b < 256) → EncDecInv e d ea da →
    ∃ outs da2 d2,
      procDec da d (procEnc ea e bs).1 = .ok (outs, da2, d2) ∧
      EncDecInv (procEnc ea e bs).2.2 d2 (procEnc ea e bs).2.1 da2 ∧
      (procEnc ea e bs).2.2 = (e + 3 * bs.length) % 5 ∧
      5 * (procEnc ea e bs).1.length + (procEnc ea e bs).2.2 = e + 8 * bs.length ∧
      (∀ g ∈ (procEnc ea e bs).1, g < 32) ∧
      outs ++ (if (procEnc ea e bs).2.2 = 0 then []
          else [(procEnc ea e bs).2.1 % 256]) =
        (if e = 0 then [] else [ea % 256]) ++ bs := by
  induction bs with
  | nil =>
    intro e d ea da _ hinv
    have he := hinv.1
    refine ⟨[], da, d, rfl, hinv, ?_, by simp [procEnc], by simp [procEnc],
      by simp [procEnc]⟩
    simp only [procEnc, List.length_nil]
    omega
  | cons b rest ih =>
    intro e d ea da hbs hinv
    have hb : b < 256 := hbs b (by simp)
    obtain ⟨outs1, da2, d2, hPD1, hinv1, he2, hlen1, hg1, houts1⟩ :=
      @encDec_step b hb e d ea da hinv
        (drainGroups 5 ((ea <<< 8) ||| b) (e + 8)).1
        (drainGroups 5 ((ea <<< 8) ||| b) (e + 8)).2 rfl
    obtain ⟨outs2, da3, d3, hPD2, hinv2, hef, hlen2, hg2, houts2⟩ :=
      ih (drainGroups 5 ((ea <<< 8) ||| b) (e + 8)).2 d2 ((ea <<< 8) ||| b) da2
        (fun x hx => hbs x (by simp [hx])) hinv1
    have hsplit : procEnc ea e (b :: rest) =
        ((drainGroups 5 ((ea <<< 8) ||| b) (e + 8)).1 ++
          (procEnc ((ea <<< 8) ||| b)
            (drainGroups 5 ((ea <<< 8) ||| b) (e + 8)).2 rest).1,
         (procEnc ((ea <<< 8) ||| b)
            (drainGroups 5 ((ea <<< 8) ||| b) (e + 8)).2 rest).2) := rfl
    rw [hsplit]
    refine ⟨outs1 ++ outs2, da3, d3, ?_, hinv2, ?_, ?_, ?_, ?_⟩
    · rw [procDec_append, hPD1]
      simp only []
      rw [hPD2]
    · simp only [List.length_cons]
      omega
    · simp only [List.length_append, List.length_cons]
      omega
    · intro g hg
      rcases List.mem_append.mp hg with h | h
      · exact hg1 g h
      · exact hg2 g h
    · rw [List.append_assoc, houts2, ← List.append_assoc, houts1, List.append_assoc]
      rfl

theorem mul32_lor_mod32 (a x : Nat) : a * 32 ||| x % 32 = a * 32 + x % 32 := by
  have h : x % 32 < 2 ^ 5 := by norm_num; omega
  rw [show a * 32 = 2 ^ 5 * a from by ring, ← Nat.mul_add_lt_is_or h a]

set_option maxHeartbeats 2000000 in
/-- Round trip: repacking bytes into 5-bit groups and back recovers the
bytes, for inputs of any length. -/
theorem conv85_roundtrip (bs : List Nat) (hbs : ∀ b ∈ bs, b < 256) :
    convertBits (convert8to5 bs) 5 8 false = .ok bs := by
  obtain ⟨outs, da2, d2, hPD, hinv, hef, hlen, hgs, houts⟩ :=
    encDec_main bs 0 0 0 0 hbs ⟨by norm_num, rfl, fun hc => absurd rfl hc⟩
  have hcb : convertBits (convert8to5 bs) 5 8 false
      = convertBitsGo 5 8 255 4095 false 0 0 (convert8to5 bs) := rfl
  rw [hcb, convert8to5, convert8to5Go_eq_procEnc, convertBitsGo_eq_procDec,
    procDec_append, hPD]
  simp only []
  obtain ⟨hE5, hd2, hrel⟩ := hinv
  interval_cases hE : (procEnc 0 0 bs).2.2
  · -- no pending bits: no padding group, clean end state
    norm_num at hd2
    subst hd2
    norm_num at houts ⊢
    have hresid : (da2 <<< 8) &&& 255 = 0 := by
      rw [and_255_eq_mod, Nat.shiftLeft_eq]
      norm_num
    simp [procDec, hresid, houts]
  all_goals norm_num at hd2 hrel
  all_goals subst hd2
  · -- 1 pending bits at the end of the input
    norm_num at houts ⊢
    have h128 : (2 : Nat) ^ 7 = 128 := by norm_num
    rw [h128] at hrel
    have hresid : ((da2 <<< 5 ||| (procEnc 0 0 bs).2.1 <<< 4 &&& 31) &&& 4095)
        <<< 4 &&& 255 = 0 := by
      simp only [and_4095_eq_mod, and_31_eq_mod, and_255_eq_mod, Nat.shiftLeft_eq,
        shiftLeft5_lor_mod32]
      norm_num
      simp only [mul32_lor_mod32]
      omega
    have hbyte : ((da2 <<< 5 ||| (procEnc 0 0 bs).2.1 <<< 4 &&& 31) &&& 4095)
        >>> 4 &&& 255 = (procEnc 0 0 bs).2.1 % 256 := by
      simp only [and_4095_eq_mod, and_31_eq_mod, and_255_eq_mod, Nat.shiftLeft_eq,
        Nat.shiftRight_eq_div_pow, shiftLeft5_lor_mod32]
      norm_num
      simp only [mul32_lor_mod32]
      omega
    simp [procDec, and31_shiftRight5, drain8_9, drain8_10, drain8_11, drain8_12,
      hresid, hbyte, houts]
  · -- 2 pending bits at the end of the input
    norm_num at houts ⊢
    have h128 : (2 : Nat) ^ 6 = 64 := by norm_num
    rw [h128] at hrel
    have hresid : ((da2 <<< 5 ||| (procEnc 0 0 bs).2.1 <<< 3 &&& 31) &&& 4095)
        <<< 5 &&& 255 = 0 := by
      simp only [and_4095_eq_mod, and_31_eq_mod, and_255_eq_mod, Nat.shiftLeft_eq,
        shiftLeft5_lor_mod32]
      norm_num
      simp only [mul32_lor_mod32]
      omega
    have hbyte : ((da2 <<< 5 ||| (procEnc 0 0 bs).2.1 <<< 3 &&& 31) &&& 4095)
        >>> 3 &&& 255 = (procEnc 0 0 bs).2.1 % 256 := by
      simp only [and_4095_eq_mod, and_31_eq_mod, and_255_eq_mod, Nat.shiftLeft_eq,
        Nat.shiftRight_eq_div_pow, shiftLeft5_lor_mod32]
      norm_num
      simp only [mul32_lor_mod32]
      omega
    simp [procDec, and31_shiftRight5, drain8_9, drain8_10, drain8_11, drain8_12,
      hresid, hbyte, houts]
  · -- 3 pending bits at the end of the input
    norm_num at houts ⊢
    have h128 : (2 : Nat) ^ 5 = 32 := by norm_num
    rw [h128] at hrel
    have hresid : ((da2 <<< 5 ||| (procEnc 0 0 bs).2.1 <<< 2 &&& 31) &&& 4095)
        <<< 6 &&& 255 = 0 := by
      simp only [and_4095_eq_mod, and_31_eq_mod, and_255_eq_mod, Nat.shiftLeft_eq,
        shiftLeft5_lor_mod32]
      norm_num
      simp only [mul32_lor_mod32]
      omega
    have hbyte : ((da2 <<< 5 ||| (procEnc 0 0 bs).2.1 <<< 2 &&& 31) &&& 4095)
        >>> 2 &&& 255 = (procEnc 0 0 bs).2.1 % 256 := by
      simp only [and_4095_eq_mod, and_31_eq_mod, and_255_eq_mod, Nat.shiftLeft_eq,
        Nat.shiftRight_eq_div_pow, shiftLeft5_lor_mod32]
      norm_num
      simp only [mul32_lor_mod32]
      omega
    simp [procDec, and31_shiftRight5, drain8_9, drain8_10, drain8_11, drain8_12,
      hresid, hbyte, houts]
  · -- 4 pending bits at the end of the input
    norm_num at houts ⊢
    have h128 : (2 : Nat) ^ 4 = 16 := by norm_num
    rw [h128] at hrel
    have hresid : ((da2 <<< 5 ||| (procEnc 0 0 bs).2.1 <<< 1 &&& 31) &&& 4095)
        <<< 7 &&& 255 = 0 := by
      simp only [and_4095_eq_mod, and_31_eq_mod, and_255_eq_mod, Nat.shiftLeft_eq,
        shiftLeft5_lor_mod32]
      norm_num
      simp only [mul32_lor_mod32]
      omega
    have hbyte : ((da2 <<< 5 ||| (procEnc 0 0 bs).2.1 <<< 1 &&& 31) &&& 4095)
        >>> 1 &&& 255 = (procEnc 0 0 bs).2.1 % 256 := by
      simp only [and_4095_eq_mod, and_31_eq_mod, and_255_eq_mod, Nat.shiftLeft_eq,
        Nat.shiftRight_eq_div_pow, shiftLeft5_lor_mod32]
      norm_num
      simp only [mul32_lor_mod32]
      omega
    simp [procDec, and31_shiftRight5, drain8_9, drain8_10, drain8_11, drain8_12,
      hresid, hbyte, houts]

/-! ## C5 support: the Bech32 checksum verifies by construction -/

theorem nat_xor_left_comm (a b c : Nat) : a ^^^ (b ^^^ c) = b ^^^ (a ^^^ c) := by
  rw [← Nat.xor_assoc, Nat.xor_comm a b, Nat.xor_assoc]

theorem xor_shiftLeft_distrib (x y k : Nat) :
    (x ^^^ y) <<< k = (x <<< k) ^^^ (y <<< k) := by
  apply Nat.eq_of_testBit_eq
  intro i
  simp only [Nat.testBit_shiftLeft, Nat.testBit_xor]
  cases decide (i ≥ k) <;> simp

theorem xor_shiftRight_distrib (x y k : Nat) :
    (x ^^^ y) >>> k = (x >>> k) ^^^ (y >>> k) := by
  apply Nat.eq_of_testBit_eq
  intro i
  simp only [Nat.testBit_shiftRight, Nat.testBit_xor]

/-- The step with value `v` is the step with value `0`, xor `v`. -/
theorem polymodStep_v (chk v : Nat) :
    bech32PolymodStep chk v = bech32PolymodStep chk 0 ^^^ v := by
  simp only [bech32PolymodStep]
  split_ifs <;>
    simp [Nat.xor_assoc, Nat.xor_comm, nat_xor_left_comm]

/-- Normal form of the zero-value step: the shifted 25-bit window xored with
the generator terms selected by the top five bits. -/
theorem step0_normal (chk : Nat) :
    bech32PolymodStep chk 0 =
      ((chk &&& 0x1ffffff) <<< 5) ^^^
      (if (chk >>> 25 >>> 0) &&& 1 = 1 then 0x3b6a57b2 else 0) ^^^
      (if (chk >>> 25 >>> 1) &&& 1 = 1 then 0x26508e6d else 0) ^^^
      (if (chk >>> 25 >>> 2) &&& 1 = 1 then 0x1ea119fa else 0) ^^^
      (if (chk >>> 25 >>> 3) &&& 1 = 1 then 0x3d4233dd else 0) ^^^
      (if (chk >>> 25 >>> 4) &&& 1 = 1 then 0x2a1462b3 else 0) := by
  simp only [bech32PolymodStep]
  split_ifs <;>
    simp [Nat.xor_assoc, Nat.xor_comm, nat_xor_left_comm]

/-- Each generator term is xor-linear in the checksum state. -/
theorem gterm_xor (a b i g : Nat) :
    (if ((a ^^^ b) >>> 25 >>> i) &&& 1 = 1 then g else 0) =
      (if (a >>> 25 >>> i) &&& 1 = 1 then g else 0) ^^^
      (if (b >>> 25 >>> i) &&& 1 = 1 then g else 0) := by
  rw [xor_shiftRight_distrib, xor_shiftRight_distrib, Nat.and_xor_distrib_right]
  have ha : (a >>> 25 >>> i) &&& 1 = 0 ∨ (a >>> 25 >>> i) &&& 1 = 1 := by
    rw [Nat.and_one_is_mod]; omega
  have hb : (b >>> 25 >>> i) &&& 1 = 0 ∨ (b >>> 25 >>> i) &&& 1 = 1 := by
    rw [Nat.and_one_is_mod]; omega
  rcases ha with h | h <;> rcases hb with h2 | h2 <;> simp [h, h2]

set_option maxHeartbeats 2000000 in
/-- The zero-value step is xor-linear. -/
theorem step0_xor (a b : Nat) :
    bech32PolymodStep (a ^^^ b) 0 =
      bech32PolymodStep a 0 ^^^ bech32PolymodStep b 0 := by
  rw [step0_normal (a ^^^ b), step0_normal a, step0_normal b,
    Nat.and_xor_distrib_right, xor_shiftLeft_distrib,
    gterm_xor, gterm_xor, gterm_xor, gterm_xor, gterm_xor]
  simp only [Nat.xor_assoc]
  simp [Nat.xor_comm, nat_xor_left_comm, Nat.xor_assoc]

/-- Xor-linearity of the whole polymod fold: the two summands evolve
independently, the second one over a zero stream of the same length. -/
theorem polymod_foldl_xor (l : List Nat) : ∀ a b,
    l.foldl bech32PolymodStep (a ^^^ b) =
      l.foldl bech32PolymodStep a ^^^
        (List.replicate l.length 0).foldl bech32PolymodStep b := by
  induction l with
  | nil => intro a b; simp
  | cons v rest ih =>
    intro a b
    simp only [List.foldl_cons, List.length_cons, List.replicate_succ]
    have hstep : bech32PolymodStep (a ^^^ b) v =
        bech32PolymodStep a v ^^^ bech32PolymodStep b 0 := by
      rw [polymodStep_v (a ^^^ b), step0_xor, polymodStep_v a v]
      rw [Nat.xor_assoc, Nat.xor_comm (bech32PolymodStep b 0) v, ← Nat.xor_assoc]
    rw [hstep, ih]

theorem step0_small {x : Nat} (hx : x < 2 ^ 25) :
    bech32PolymodStep x 0 = x <<< 5 := by
  have hb : x >>> 25 = 0 := by
    rw [Nat.shiftRight_eq_div_pow]
    omega
  have hm : x &&& 0x1ffffff = x := by
    rw [show (0x1ffffff : Nat) = 2 ^ 25 - 1 from by norm_num,
      Nat.and_pow_two_sub_one_eq_mod]
    omega
  simp only [bech32PolymodStep]
  rw [hb, hm]
  norm_num

theorem shiftLeft5_xor_small {v : Nat} (x : Nat) (hv : v < 32) :
    (x <<< 5) ^^^ v = x * 32 + v := by
  have hor : (x <<< 5) ^^^ v = (x <<< 5) ||| v := by
    apply Nat.eq_of_testBit_eq
    intro i
    rw [Nat.testBit_xor, Nat.testBit_or, Nat.testBit_shiftLeft]
    by_cases h5 : 5 ≤ i
    · have hvi : v.testBit i = false :=
        Nat.testBit_lt_two_pow (lt_of_lt_of_le hv (by
          calc (32 : Nat) = 2 ^ 5 := by norm_num
            _ ≤ 2 ^ i := Nat.pow_le_pow_right (by norm_num) h5))
      simp [hvi]
    · simp [show ¬(i ≥ 5) from h5]
  rw [hor, shiftLeft_lor_eq_add x (by norm_num; omega)]
  norm_num

/-- A small-state step with a 5-bit value shifts and adds. -/
theorem step_small_add {x v : Nat} (hx : x < 2 ^ 25) (hv : v < 32) :
    bech32PolymodStep x v = x * 32 + v := by
  rw [polymodStep_v, step0_small hx, shiftLeft5_xor_small x hv]

/-- Folding the six 5-bit chunks of a 30-bit word from state 0 rebuilds the
word. -/
theorem foldl_checksum_chunks {p : Nat} (hp : p < 2 ^ 30) :
    [(p >>> 25) &&& 31, (p >>> 20) &&& 31, (p >>> 15) &&& 31,
     (p >>> 10) &&& 31, (p >>> 5) &&& 31, (p >>> 0) &&& 31].foldl
      bech32PolymodStep 0 = p := by
  have h0 := and31_lt (p >>> 25)
  have h1 := and31_lt (p >>> 20)
  have h2 := and31_lt (p >>> 15)
  have h3 := and31_lt (p >>> 10)
  have h4 := and31_lt (p >>> 5)
  have h5 := and31_lt (p >>> 0)
  simp only [List.foldl_cons, List.foldl_nil]
  rw [step_small_add (by norm_num) h0]
  rw [step_small_add (by norm_num; omega) h1]
  rw [step_small_add (by norm_num; omega) h2]
  rw [step_small_add (by norm_num; omega) h3]
  rw [step_small_add (by norm_num; omega) h4]
  rw [step_small_add (by norm_num; omega) h5]
  simp only [and_31_eq_mod, Nat.shiftRight_eq_div_pow]
  norm_num
  omega

theorem polymodStep_lt {chk v : Nat} (hv : v < 2 ^ 30) :
    bech32PolymodStep chk v < 2 ^ 30 := by
  have hbase : ((chk &&& 0x1ffffff) <<< 5) ^^^ v < 2 ^ 30 := by
    apply Nat.xor_lt_two_pow ?_ hv
    rw [Nat.shiftLeft_eq]
    have h := @Nat.and_le_right chk 0x1ffffff
    norm_num at h ⊢
    omega
  simp only [bech32PolymodStep]
  split_ifs <;>
    repeat first
      | exact hbase
      | exact Nat.xor_lt_two_pow (by assumption) (by norm_num)
      | apply Nat.xor_lt_two_pow hbase (by norm_num)
      | apply Nat.xor_lt_two_pow _ (by norm_num)

theorem polymod_foldl_lt (l : List Nat) : ∀ chk, chk < 2 ^ 30 →
    (∀ v ∈ l, v < 2 ^ 30) → l.foldl bech32PolymodStep chk < 2 ^ 30 := by
  induction l with
  | nil => intro chk h _; simpa using h
  | cons v rest ih =>
    intro chk h hl
    simp only [List.foldl_cons]
    exact ih _ (polymodStep_lt (hl v (by simp))) (fun x hx => hl x (by simp [hx]))

/-- The explicit six 5-bit chunks produced by `bech32CreateChecksum`. -/
theorem bech32CreateChecksum_eq (hrp data : List Nat) (c : Nat) :
    bech32CreateChecksum hrp data c =
      [(((bech32Polymod ((bech32ExpandHRP hrp ++ data) ++ [0, 0, 0, 0, 0, 0])) ^^^ c) >>> 25) &&& 31,
       (((bech32Polymod ((bech32ExpandHRP hrp ++ data) ++ [0, 0, 0, 0, 0, 0])) ^^^ c) >>> 20) &&& 31,
       (((bech32Polymod ((bech32ExpandHRP hrp ++ data) ++ [0, 0, 0, 0, 0, 0])) ^^^ c) >>> 15) &&& 31,
       (((bech32Polymod ((bech32ExpandHRP hrp ++ data) ++ [0, 0, 0, 0, 0, 0])) ^^^ c) >>> 10) &&& 31,
       (((bech32Polymod ((bech32ExpandHRP hrp ++ data) ++ [0, 0, 0, 0, 0, 0])) ^^^ c) >>> 5) &&& 31,
       (((bech32Polymod ((bech32ExpandHRP hrp ++ data) ++ [0, 0, 0, 0, 0, 0])) ^^^ c) >>> 0) &&& 31] := by
  simp only [bech32CreateChecksum]
  rw [show List.range 6 = [0, 1, 2, 3, 4, 5] from rfl]
  norm_num

set_option maxHeartbeats 1000000 in
/-- The checksum appended by `bech32CreateChecksum` verifies against the
same constant, for any HRP of bytes and any 5-bit data. -/
theorem bech32_checksum_verifies (hrp data : List Nat) (c : Nat)
    (hc : c < 2 ^ 30) (hhrp : ∀ x ∈ hrp, x < 256) (hdata : ∀ v ∈ data, v < 32) :
    bech32VerifyChecksum hrp (data ++ bech32CreateChecksum hrp data c) c = true := by
  rw [bech32VerifyChecksum, beq_iff_eq]
  rw [show bech32ExpandHRP hrp ++ (data ++ bech32CreateChecksum hrp data c)
      = (bech32ExpandHRP hrp ++ data) ++ bech32CreateChecksum hrp data c from by
    rw [List.append_assoc]]
  rw [bech32Polymod, List.foldl_append]
  have hM : ∀ x ∈ bech32ExpandHRP hrp ++ data ++ [0, 0, 0, 0, 0, 0], x < 2 ^ 30 := by
    intro x hx
    rcases List.mem_append.mp hx with hx | hx
    · rcases List.mem_append.mp hx with hx | hx
      · rcases List.mem_append.mp ((by simpa [bech32ExpandHRP] using hx :
          x ∈ hrp.map (fun c => c >>> 5) ++ ([0] ++ hrp.map (fun c => c &&& 31)))) with h | h
        · obtain ⟨y, hy, rfl⟩ := List.mem_map.mp h
          have := hhrp y hy
          rw [Nat.shiftRight_eq_div_pow]
          omega
        · rcases List.mem_append.mp h with h | h
          · simp at h; omega
          · obtain ⟨y, hy, rfl⟩ := List.mem_map.mp h
            have := and31_lt y
            rw [and_31_eq_mod] at this ⊢
            omega
      · have := hdata x hx
        omega
    · simp at hx
      omega
  have hpoly : bech32Polymod (bech32ExpandHRP hrp ++ data ++ [0, 0, 0, 0, 0, 0])
      < 2 ^ 30 := by
    apply polymod_foldl_lt _ 1 (by norm_num) hM
  set p : Nat := bech32Polymod (bech32ExpandHRP hrp ++ data ++ [0, 0, 0, 0, 0, 0]) ^^^ c
    with hp
  have hplt : p < 2 ^ 30 := Nat.xor_lt_two_pow hpoly hc
  have hM0 : List.foldl bech32PolymodStep 1 (bech32ExpandHRP hrp ++ data)
      = 0 ^^^ List.foldl bech32PolymodStep 1 (bech32ExpandHRP hrp ++ data) := by
    rw [Nat.zero_xor]
  rw [bech32CreateChecksum_eq, ← hp, hM0, polymod_foldl_xor]
  rw [foldl_checksum_chunks hplt]
  have hzs : (List.replicate
      ([(p >>> 25) &&& 31, (p >>> 20) &&& 31, (p >>> 15) &&& 31,
        (p >>> 10) &&& 31, (p >>> 5) &&& 31, (p >>> 0) &&& 31] : List Nat).length 0)
      = [0, 0, 0, 0, 0, 0] := rfl
  rw [hzs]
  have hMfold : List.foldl bech32PolymodStep
      (List.foldl bech32PolymodStep 1 (bech32ExpandHRP hrp ++ data)) [0, 0, 0, 0, 0, 0]
      = bech32Polymod (bech32ExpandHRP hrp ++ data ++ [0, 0, 0, 0, 0, 0]) := by
    rw [bech32Polymod, List.foldl_append, List.foldl_append, List.foldl_append]
  rw [hMfold, hp]
  rw [Nat.xor_comm (bech32Polymod _) c, Nat.xor_assoc, Nat.xor_self, Nat.xor_zero]

/-! ## C5 support: decoding an encoded string -/

theorem charset_getD_lt : ∀ v, v < 32 → charset.getD v 0 < 256 := by decide

theorem charset_getD_no_upper :
    ∀ v, v < 32 → ¬(65 ≤ charset.getD v 0 ∧ charset.getD v 0 ≤ 90) := by decide

theorem charset_getD_ne_sep : ∀ v, v < 32 → charset.getD v 0 ≠ 49 := by decide

theorem charset_getD_range :
    ∀ v, v < 32 → 33 ≤ charset.getD v 0 ∧ charset.getD v 0 ≤ 126 := by decide

theorem charsetMap_getD : ∀ v, v < 32 → charsetMap (charset.getD v 0) = some v := by
  decide

theorem toLowerGo_id {s : List Nat} (h : ∀ c ∈ s, ¬(65 ≤ c ∧ c ≤ 90)) :
    toLowerGo s = s := by
  induction s with
  | nil => rfl
  | cons c rest ih =>
    simp only [toLowerGo, List.map_cons] at ih ⊢
    rw [if_neg (h c (by simp)), ih (fun x hx => h x (by simp [hx]))]

theorem findIdx49_aux (l2 : List Nat) : ∀ (l1 : List Nat), (∀ c ∈ l1, c ≠ 49) →
    ∀ i, List.findIdx? (fun c => c == 49) (l1 ++ 49 :: l2) i = some (i + l1.length) := by
  intro l1
  induction l1 with
  | nil =>
    intro _ i
    simp [List.findIdx?_cons]
  | cons c rest ih =>
    intro h i
    rw [List.cons_append, List.findIdx?_cons,
      if_neg (by simp [h c (by simp)]),
      ih (fun x hx => h x (by simp [hx])) (i + 1)]
    simp only [List.length_cons]
    congr 1
    omega

theorem sepPos_encode {l1 : List Nat} (l2 : List Nat) (h1 : ∀ c ∈ l1, c ≠ 49) :
    sepPos (l1 ++ 49 :: l2) = (l1.length : Int) := by
  unfold sepPos
  rw [show List.findIdx? (fun c => c == 49) (l1 ++ 49 :: l2)
      = some l1.length from by
    have := findIdx49_aux l2 l1 h1 0
    simpa using this]

theorem createChecksum_lt (hrp data : List Nat) (c : Nat) :
    ∀ v ∈ bech32CreateChecksum hrp data c, v < 32 := by
  rw [bech32CreateChecksum_eq]
  intro v hv
  simp only [List.mem_cons, List.not_mem_nil, or_false] at hv
  rcases hv with h | h | h | h | h | h <;> subst h <;> exact and31_lt _

theorem createChecksum_len (hrp data : List Nat) (c : Nat) :
    (bech32CreateChecksum hrp data c).length = 6 := by
  rw [bech32CreateChecksum_eq]
  rfl

theorem Bech32Encode_eq (hrp data : List Nat) :
    Bech32Encode hrp data =
      hrp ++ 49 :: (data ++ bech32CreateChecksum hrp data
        (if data.length > 0 ∧ data.headD 0 ≠ 0 then 0x2bc830a3 else 1)).map
        (fun v => charset.getD v 0) := by
  simp [Bech32Encode]

theorem headD_append_left {l1 : List Nat} (l2 : List Nat) (h : l1 ≠ []) :
    (l1 ++ l2).headD 0 = l1.headD 0 := by
  cases l1 with
  | nil => exact absurd rfl h
  | cons a t => rfl

set_option maxHeartbeats 2000000 in
/-- Decoding an encoded Bech32/Bech32m string recovers the HRP and the data
values (the checksum construction and the version-selected constant agree
between the encoder and the decoder). -/
theorem Bech32Decode_encode (hrp data : List Nat)
    (hhrp : ∀ c ∈ hrp, 33 ≤ c ∧ c ≤ 126 ∧ ¬(65 ≤ c ∧ c ≤ 90) ∧ c ≠ 49)
    (hhrp_ne : hrp ≠ [])
    (hdata : ∀ v ∈ data, v < 32)
    (hdata_ne : data ≠ [])
    (hlen : hrp.length + 1 + data.length + 6 ≤ 90) :
    Bech32Decode (Bech32Encode hrp data) = .ok (hrp, data) := by
  have hhrp_len : 1 ≤ hrp.length := List.length_pos.mpr hhrp_ne
  have hdata_len : 1 ≤ data.length := List.length_pos.mpr hdata_ne
  have hcs_lt := createChecksum_lt hrp data
    (if data.length > 0 ∧ data.headD 0 ≠ 0 then 0x2bc830a3 else 1)
  have hall_lt : ∀ v ∈ data ++ bech32CreateChecksum hrp data
      (if data.length > 0 ∧ data.headD 0 ≠ 0 then 0x2bc830a3 else 1), v < 32 := by
    intro v hv
    rcases List.mem_append.mp hv with h | h
    · exact hdata v h
    · exact hcs_lt v h
  have hbody_facts : ∀ x ∈ (data ++ bech32CreateChecksum hrp data
      (if data.length > 0 ∧ data.headD 0 ≠ 0 then 0x2bc830a3 else 1)).map
        (fun v => charset.getD v 0),
      ¬(65 ≤ x ∧ x ≤ 90) ∧ x ≠ 49 := by
    intro x hx
    obtain ⟨v, hv, rfl⟩ := List.mem_map.mp hx
    exact ⟨charset_getD_no_upper v (hall_lt v hv), charset_getD_ne_sep v (hall_lt v hv)⟩
  have hs_len : (hrp ++ 49 :: (data ++ bech32CreateChecksum hrp data
      (if data.length > 0 ∧ data.headD 0 ≠ 0 then 0x2bc830a3 else 1)).map
        (fun v => charset.getD v 0)).length
      = hrp.length + 1 + (data.length + 6) := by
    simp [createChecksum_len]
    omega
  have hupper : ((hrp ++ 49 :: (data ++ bech32CreateChecksum hrp data
      (if data.length > 0 ∧ data.headD 0 ≠ 0 then 0x2bc830a3 else 1)).map
        (fun v => charset.getD v 0)).any fun c => decide (65 ≤ c ∧ c ≤ 90)) = false := by
    rw [List.any_eq_false]
    intro x hx
    rcases List.mem_append.mp hx with h | h
    · simpa using (hhrp x h).2.2.1
    · rcases List.mem_cons.mp h with h | h
      · subst h; decide
      · simpa using (hbody_facts x h).1
  have htl : toLowerGo (hrp ++ 49 :: (data ++ bech32CreateChecksum hrp data
      (if data.length > 0 ∧ data.headD 0 ≠ 0 then 0x2bc830a3 else 1)).map
        (fun v => charset.getD v 0))
      = hrp ++ 49 :: (data ++ bech32CreateChecksum hrp data
      (if data.length > 0 ∧ data.headD 0 ≠ 0 then 0x2bc830a3 else 1)).map
        (fun v => charset.getD v 0) := by
    apply toLowerGo_id
    intro c hc
    rcases List.mem_append.mp hc with h | h
    · exact (hhrp c h).2.2.1
    · rcases List.mem_cons.mp h with h | h
      · subst h; decide
      · exact (hbody_facts c h).1
  have hsep : sepPos (hrp ++ 49 :: (data ++ bech32CreateChecksum hrp data
      (if data.length > 0 ∧ data.headD 0 ≠ 0 then 0x2bc830a3 else 1)).map
        (fun v => charset.getD v 0)) = (hrp.length : Int) :=
    sepPos_encode _ (fun c hc => (hhrp c hc).2.2.2)
  rw [Bech32Encode_eq]
  simp only [Bech32Decode]
  rw [htl, hsep]
  rw [if_neg (by rw [hs_len]; push_neg; omega)]
  rw [if_neg (by
    intro hmix
    rw [hupper] at hmix
    exact Bool.false_ne_true hmix.2)]
  rw [if_neg (by
    rw [hs_len]
    push_neg
    constructor
    · omega
    · push_cast
      omega)]
  rw [show ((hrp.length : Int)).toNat = hrp.length from by simp]
  rw [List.take_left]
  rw [if_neg (by omega)]
  rw [if_neg (by
    intro hcon
    rw [List.any_eq_true] at hcon
    obtain ⟨x, hx, hP⟩ := hcon
    rw [decide_eq_true_eq] at hP
    have := hhrp x hx
    omega)]
  rw [show hrp.length + 1 = (hrp ++ [49]).length from by simp]
  rw [show hrp ++ 49 :: (data ++ bech32CreateChecksum hrp data
      (if data.length > 0 ∧ data.headD 0 ≠ 0 then 0x2bc830a3 else 1)).map
        (fun v => charset.getD v 0)
      = (hrp ++ [49]) ++ (data ++ bech32CreateChecksum hrp data
      (if data.length > 0 ∧ data.headD 0 ≠ 0 then 0x2bc830a3 else 1)).map
        (fun v => charset.getD v 0) from by simp]
  rw [List.drop_left]
  rw [if_neg (by
    intro hcon
    rw [List.any_eq_true] at hcon
    obtain ⟨x, hx, hP⟩ := hcon
    obtain ⟨v, hv, rfl⟩ := List.mem_map.mp hx
    rw [charsetMap_getD v (hall_lt v hv)] at hP
    simp at hP)]
  rw [show ((data ++ bech32CreateChecksum hrp data
      (if data.length > 0 ∧ data.headD 0 ≠ 0 then 0x2bc830a3 else 1)).map
        (fun v => charset.getD v 0)).map (fun c => (charsetMap c).getD 0)
      = data ++ bech32CreateChecksum hrp data
        (if data.length > 0 ∧ data.headD 0 ≠ 0 then 0x2bc830a3 else 1) from by
    rw [List.map_map]
    conv_rhs => rw [← List.map_id (data ++ bech32CreateChecksum hrp data
      (if data.length > 0 ∧ data.headD 0 ≠ 0 then 0x2bc830a3 else 1))]
    apply List.map_congr_left
    intro v hv
    simp only [Function.comp_apply, id_eq]
    rw [charsetMap_getD v (hall_lt v hv)]
    rfl]
  rw [if_neg (by
    rw [List.length_append, createChecksum_len]
    omega)]
  rw [headD_append_left _ hdata_ne]
  have hhead_lt : data.headD 0 < 32 := by
    cases data with
    | nil => exact absurd rfl hdata_ne
    | cons a t => exact hdata a (by simp)
  rw [if_neg (by omega)]
  have hconst : (if data.headD 0 = 0 then 1 else 0x2bc830a3)
      = (if data.length > 0 ∧ data.headD 0 ≠ 0 then 0x2bc830a3 else 1 : Nat) := by
    by_cases h : data.headD 0 = 0
    · rw [if_pos h, if_neg (fun hcon => hcon.2 h)]
    · rw [if_neg h, if_pos ⟨by omega, h⟩]
  rw [hconst]
  rw [if_neg (by
    rw [bech32_checksum_verifies hrp data _
      (by split <;> norm_num)
      (fun x hx => by have := hhrp x hx; omega)
      hdata]
    simp)]
  rw [List.length_append, createChecksum_len,
    show data.length + 6 - 6 = data.length from by omega, List.take_left]

theorem convert8to5_lt (bs : List Nat) (hbs : ∀ b ∈ bs, b < 256) :
    ∀ v ∈ convert8to5 bs, v < 32 := by
  obtain ⟨outs, da2, d2, hPD, hInv, hef, hlenE, hgs, houts⟩ :=
    encDec_main bs 0 0 0 0 hbs ⟨by norm_num, rfl, fun h => absurd rfl h⟩
  intro v hv
  rw [convert8to5, convert8to5Go_eq_procEnc] at hv
  rcases List.mem_append.mp hv with h | h
  · exact hgs v h
  · by_cases h0 : (procEnc 0 0 bs).2.2 > 0
    · rw [if_pos h0] at h
      rcases List.mem_singleton.mp h with rfl
      exact and31_lt _
    · rw [if_neg h0] at h
      exact absurd h (List.not_mem_nil v)
  
theorem convert8to5_length (bs : List Nat) (hbs : ∀ b ∈ bs, b < 256) :
    (convert8to5 bs).length
      = 8 * bs.length / 5 + (if 3 * bs.length % 5 = 0 then 0 else 1) := by
  obtain ⟨outs, da2, d2, hPD, hInv, hef, hlenE, hgs, houts⟩ :=
    encDec_main bs 0 0 0 0 hbs ⟨by norm_num, rfl, fun h => absurd rfl h⟩
  rw [convert8to5, convert8to5Go_eq_procEnc, List.length_append]
  simp only [Nat.zero_add] at hef hlenE
  by_cases h0 : (procEnc 0 0 bs).2.2 > 0
  · rw [if_pos h0, if_neg (by omega)]
    simp only [List.length_cons, List.length_nil]
    omega
  · rw [if_neg h0, if_pos (by omega)]
    simp only [List.length_nil]
    omega

theorem hrp_facts (n : Network) :
    ∀ c ∈ (networkConfigs n).bech32HRP,
      33 ≤ c ∧ c ≤ 126 ∧ ¬(65 ≤ c ∧ c ≤ 90) ∧ c ≠ 49 := by
  cases n <;> decide

theorem hrpm_facts (n : Network) :
    ∀ c ∈ (networkConfigs n).bech32mHRP,
      33 ≤ c ∧ c ≤ 126 ∧ ¬(65 ≤ c ∧ c ≤ 90) ∧ c ≠ 49 := by
  cases n <;> decide

theorem hrp_ne_nil (n : Network) : (networkConfigs n).bech32HRP ≠ [] := by
  cases n <;> decide

theorem hrpm_ne_nil (n : Network) : (networkConfigs n).bech32mHRP ≠ [] := by
  cases n <;> decide

theorem hrp_len_le (n : Network) : (networkConfigs n).bech32HRP.length ≤ 4 := by
  cases n <;> decide

theorem hrpm_len_le (n : Network) : (networkConfigs n).bech32mHRP.length ≤ 4 := by
  cases n <;> decide

theorem lookup_hrp (n : Network) :
    lookupNetworkByHRP (networkConfigs n).bech32HRP = some n := by
  cases n <;> decide

theorem lookup_hrpm (n : Network) :
    lookupNetworkByHRP (networkConfigs n).bech32mHRP = some n := by
  cases n <;> decide

set_option maxHeartbeats 1000000 in
/-- **C5.** For every 20-byte program `h` and supported network `n`, decoding
the address produced by `CreateP2WPKH h n` succeeds and yields type P2WPKH,
network `n` and program `h`; analogously `CreateP2TR` with a 32-byte key
decodes to type P2TR, network `n` and the same key. -/
theorem C5_create_decode_roundtrip (n : Network) :
    (∀ h s, h.length = 20 → (∀ b ∈ h, b < 256) →
      CreateP2WPKH h n = .ok s → DecodeAddress s = .ok ⟨.P2WPKH, n, h⟩) ∧
    (∀ k s, k.length = 32 → (∀ b ∈ k, b < 256) →
      CreateP2TR k n = .ok s → DecodeAddress s = .ok ⟨.P2TR, n, k⟩) := by
  constructor
  · intro h s hlen hbytes hcreate
    simp only [CreateP2WPKH] at hcreate
    rw [if_neg (by simp [hlen])] at hcreate
    injection hcreate with hs
    subst hs
    have hprog_lt := convert8to5_lt h hbytes
    have hprog_len : (convert8to5 h).length = 32 := by
      rw [convert8to5_length h hbytes, hlen]
      norm_num
    have hdec := Bech32Decode_encode (networkConfigs n).bech32HRP
      (0 :: convert8to5 h) (hrp_facts n) (hrp_ne_nil n)
      (by
        intro v hv
        rcases List.mem_cons.mp hv with rfl | hv
        · omega
        · exact hprog_lt v hv)
      (by simp)
      (by
        have := hrp_len_le n
        simp only [List.length_cons, hprog_len]
        omega)
    simp only [DecodeAddress]
    rw [hdec]
    simp only []
    rw [lookup_hrp n]
    simp only [List.drop_succ_cons, List.drop_zero]
    rw [conv85_roundtrip h hbytes]
    simp only [List.headD_cons]
    rw [if_neg (by simp [hlen])]
  · intro k s hlen hbytes hcreate
    simp only [CreateP2TR] at hcreate
    rw [if_neg (by simp [hlen])] at hcreate
    injection hcreate with hs
    subst hs
    have hprog_lt := convert8to5_lt k hbytes
    have hprog_len : (convert8to5 k).length = 52 := by
      rw [convert8to5_length k hbytes, hlen]
      norm_num
    have hdec := Bech32Decode_encode (networkConfigs n).bech32mHRP
      (1 :: convert8to5 k) (hrpm_facts n) (hrpm_ne_nil n)
      (by
        intro v hv
        rcases List.mem_cons.mp hv with rfl | hv
        · omega
        · exact hprog_lt v hv)
      (by simp)
      (by
        have := hrpm_len_le n
        simp only [List.length_cons, hprog_len]
        omega)
    simp only [DecodeAddress]
    rw [hdec]
    simp only []
    rw [lookup_hrpm n]
    simp only [List.drop_succ_cons, List.drop_zero]
    rw [conv85_roundtrip k hbytes]
    simp only [List.headD_cons]
    rw [if_neg (by simp [hlen])]

theorem C5_create_decode_roundtrip_witness :
    (List.replicate 20 0).length = 20 ∧
    DecodeAddress (Bech32Encode [98, 99] (0 :: convert8to5 (List.replicate 20 0)))
      = .ok ⟨.P2WPKH, .BitcoinMainnet, List.replicate 20 0⟩ :=
  ⟨by decide,
   (C5_create_decode_roundtrip .BitcoinMainnet).1 (List.replicate 20 0) _
     (by decide) (by decide) rfl⟩

theorem C6_Bech32Decode_errors_witness :
    isErr (Bech32Decode [113, 113, 113]) = true :=
  (C6_Bech32Decode_errors [113, 113, 113]).1 (by decide)

/-! ## C7: witness-inclusive vs legacy serialization -/

/-- **C7.** When at least one input carries a non-empty witness stack the
witness-inclusive serialization differs from the legacy one (marker/flag and
the per-input witness stacks are inserted); when no input carries witness
data the two serializations are byte-identical and `TxHash = WTxHash`. -/
theorem C7_txid_wtxid (tx : MsgTx) :
    (tx.TxIn.any (fun txin => txin.Witness.length > 0) = true →
      tx.Serialize true ≠ tx.Serialize false) ∧
    (tx.TxIn.any (fun txin => txin.Witness.length > 0) = false →
      tx.Serialize true = tx.Serialize false ∧ tx.TxHash = tx.WTxHash) := by
  constructor
  · intro h heq
    have hlt : (tx.Serialize false).length < (tx.Serialize true).length := by
      simp only [MsgTx.Serialize, h, Bool.and_true, Bool.and_false,
        Bool.true_and, Bool.false_and, if_pos, if_neg, Bool.false_eq_true,
        not_false_eq_true, ite_true, ite_false]
      simp only [List.length_append, List.length_cons, List.length_nil]
      omega
    have hL := congrArg List.length heq
    omega
  · intro h
    have hser : tx.Serialize true = tx.Serialize false := by
      simp only [MsgTx.Serialize, h, Bool.and_true, Bool.and_false,
        Bool.true_and, Bool.false_and]
    exact ⟨hser, by rw [MsgTx.TxHash, MsgTx.WTxHash, hser]⟩

theorem C7_txid_wtxid_witness :
    (MsgTx.mk 2 [TxIn.mk (OutPoint.mk (List.replicate 32 0) 0) [] [[48]] 4294967295]
        [TxOut.mk 5000 [0, 20]] 0).Serialize true
      ≠ (MsgTx.mk 2 [TxIn.mk (OutPoint.mk (List.replicate 32 0) 0) [] [[48]] 4294967295]
        [TxOut.mk 5000 [0, 20]] 0).Serialize false ∧
    (MsgTx.mk 2 [TxIn.mk (OutPoint.mk (List.replicate 32 0) 0) [] [] 4294967295]
        [TxOut.mk 5000 [0, 20]] 0).TxHash
      = (MsgTx.mk 2 [TxIn.mk (OutPoint.mk (List.replicate 32 0) 0) [] [] 4294967295]
        [TxOut.mk 5000 [0, 20]] 0).WTxHash :=
  ⟨(C7_txid_wtxid _).1 (by decide),
   ((C7_txid_wtxid _).2 (by decide)).2⟩

/-! ## C9: failed calls leave the Sweeper unchanged -/

theorem buildTransaction_ok_or_unchanged (s : Sweeper) (utxos : List UTXO)
    (outputs : List TxOutput) (changeAddr : List Nat) :
    (s.buildTransaction utxos outputs changeAddr).2 = s ∨
      ∃ plan, (s.buildTransaction utxos outputs changeAddr).1 = .ok plan := by
  simp only [Sweeper.buildTransaction]
  repeat
    first
    | exact Or.inl rfl
    | exact Or.inr ⟨_, rfl⟩
    | split

theorem Index_ok_or_unchanged (s : Sweeper) (u : UTXO) :
    (s.Index u).2 = s ∨ ∃ r, (s.Index u).1 = .ok r := by
  simp only [Sweeper.Index]
  repeat
    first
    | exact Or.inl rfl
    | exact Or.inr ⟨_, rfl⟩
    | split

theorem Spend_ok_or_unchanged (s : Sweeper) (outputs : List TxOutput) :
    (s.Spend outputs).2 = s ∨ ∃ plan, (s.Spend outputs).1 = .ok plan := by
  simp only [Sweeper.Spend]
  repeat
    first
    | exact Or.inl rfl
    | exact buildTransaction_ok_or_unchanged s s.indexedUTXOs outputs _
    | split

theorem ConsolidateAll_ok_or_unchanged (s : Sweeper) (destAddr : List Nat) :
    (s.ConsolidateAll destAddr).2 = s ∨
      ∃ plan, (s.ConsolidateAll destAddr).1 = .ok plan := by
  simp only [Sweeper.ConsolidateAll]
  repeat
    first
    | exact Or.inl rfl
    | exact Or.inr ⟨_, rfl⟩
    | split

theorem SpendEven_ok_or_unchanged (s : Sweeper) (destAddrs : List (List Nat))
    (totalSats minChunk : Int) :
    (s.SpendEven destAddrs totalSats minChunk).2 = s ∨
      ∃ plan, (s.SpendEven destAddrs totalSats minChunk).1 = .ok plan := by
  simp only [Sweeper.SpendEven]
  repeat
    first
    | exact Or.inl rfl
    | exact Spend_ok_or_unchanged s _
    | split

theorem SpendWeighted_ok_or_unchanged (s : Sweeper) (weights : List WeightedAddr)
    (totalSats minChunk : Int) :
    (s.SpendWeighted weights totalSats minChunk).2 = s ∨
      ∃ plan, (s.SpendWeighted weights totalSats minChunk).1 = .ok plan := by
  simp only [Sweeper.SpendWeighted]
  repeat
    first
    | exact Or.inl rfl
    | exact Spend_ok_or_unchanged s _
    | split

theorem SpendToWallets_ok_or_unchanged (s : Sweeper) (totalSats minChunk : Int) :
    (s.SpendToWallets totalSats minChunk).2 = s ∨
      ∃ plan, (s.SpendToWallets totalSats minChunk).1 = .ok plan := by
  simp only [Sweeper.SpendToWallets]
  repeat
    first
    | exact Or.inl rfl
    | exact Spend_ok_or_unchanged s _
    | split

/-- **C9.** Whenever `Index`, `Spend`, `ConsolidateAll` or one of the
facades built on them returns an error, the Sweeper is unchanged: the
indexed UTXO list, the chain-depth map and the KV store are exactly as
before the call. -/
theorem C9_error_leaves_state_unchanged (s : Sweeper) :
    (∀ u e, (s.Index u).1 = .error e → (s.Index u).2 = s) ∧
    (∀ outs e, (s.Spend outs).1 = .error e → (s.Spend outs).2 = s) ∧
    (∀ d e, (s.ConsolidateAll d).1 = .error e → (s.ConsolidateAll d).2 = s) ∧
    (∀ ds t m e, (s.SpendEven ds t m).1 = .error e → (s.SpendEven ds t m).2 = s) ∧
    (∀ w t m e, (s.SpendWeighted w t m).1 = .error e →
      (s.SpendWeighted w t m).2 = s) ∧
    (∀ t m e, (s.SpendToWallets t m).1 = .error e →
      (s.SpendToWallets t m).2 = s) := by
  refine ⟨fun u e h => ?_, fun outs e h => ?_, fun d e h => ?_,
    fun ds t m e h => ?_, fun w t m e h => ?_, fun t m e h => ?_⟩
  · rcases Index_ok_or_unchanged s u with h2 | ⟨r, h2⟩
    · exact h2
    · rw [h] at h2; exact absurd h2 (by simp)
  · rcases Spend_ok_or_unchanged s outs with h2 | ⟨r, h2⟩
    · exact h2
    · rw [h] at h2; exact absurd h2 (by simp)
  · rcases ConsolidateAll_ok_or_unchanged s d with h2 | ⟨r, h2⟩
    · exact h2
    · rw [h] at h2; exact absurd h2 (by simp)
  · rcases SpendEven_ok_or_unchanged s ds t m with h2 | ⟨r, h2⟩
    · exact h2
    · rw [h] at h2; exact absurd h2 (by simp)
  · rcases SpendWeighted_ok_or_unchanged s w t m with h2 | ⟨r, h2⟩
    · exact h2
    · rw [h] at h2; exact absurd h2 (by simp)
  · rcases SpendToWallets_ok_or_unchanged s t m with h2 | ⟨r, h2⟩
    · exact h2
    · rw [h] at h2; exact absurd h2 (by simp)

theorem C9_error_leaves_state_unchanged_witness :
    ((NewSweeper [] .BitcoinMainnet).Spend []).1 = .error "no outputs specified" ∧
    ((NewSweeper [] .BitcoinMainnet).Spend []).2 = NewSweeper [] .BitcoinMainnet :=
  ⟨rfl, (C9_error_leaves_state_unchanged (NewSweeper [] .BitcoinMainnet)).2.1
    [] "no outputs specified" rfl⟩

/-! ## C10: Index performs no deduplication -/

theorem Index_of_checks (s : Sweeper) (u : UTXO)
    (hv : s.validateUTXOAddress u = .ok ())
    (hd : s.checkDustThreshold u = .ok ())
    (h3 : ¬(¬u.Confirmed ∧ ¬s.allowUnconfirmed))
    (h4 : ¬(¬u.Confirmed ∧ s.getChainDepth u.TxID ≥ s.maxChainDepth)) :
    s.Index u = (.ok (), { s with
      indexedUTXOs := s.indexedUTXOs ++ [u],
      kv := kvPut (utxoKey u) (.utxoVal u) s.kv }) := by
  simp only [Sweeper.Index, hv, hd]
  rw [if_neg h3, if_neg h4]

theorem Index_ok_inversion {s : Sweeper} {u : UTXO}
    (h : (s.Index u).1 = .ok ()) :
    s.validateUTXOAddress u = .ok () ∧ s.checkDustThreshold u = .ok () ∧
    ¬(¬u.Confirmed ∧ ¬s.allowUnconfirmed) ∧
    ¬(¬u.Confirmed ∧ s.getChainDepth u.TxID ≥ s.maxChainDepth) := by
  simp only [Sweeper.Index] at h
  split at h
  · simp at h
  · rename_i v hveq
    split at h
    · simp at h
    · rename_i w hdeq
      split at h
      · simp at h
      · rename_i h3
        split at h
        · simp at h
        · rename_i h4
          cases v
          cases w
          exact ⟨hveq, hdeq, h3, h4⟩

theorem count_insertByValue (v u : UTXO) (l : List UTXO) :
    (insertByValue v l).count u = (v :: l).count u := by
  induction l with
  | nil => rfl
  | cons w rest ih =>
    simp only [insertByValue]
    split
    · rfl
    · simp only [List.count_cons, ih]
      omega

theorem count_sortByValue (l : List UTXO) (u : UTXO) :
    (sortByValue l).count u = l.count u := by
  induction l with
  | nil => rfl
  | cons v rest ih =>
    simp only [sortByValue, count_insertByValue, List.count_cons, ih]

theorem count_filterLoop (s : Sweeper) (minValue : Int) (u : UTXO)
    (hu : u.Confirmed = true) (hval : minValue ≤ u.ValueSats) :
    ∀ (l : List UTXO) (unconf : Int),
      (filterLoop s minValue l unconf).count u = l.count u := by
  intro l
  induction l with
  | nil => intro unconf; rfl
  | cons v rest ih =>
    intro unconf
    by_cases hvu : v = u
    · subst hvu
      simp only [filterLoop]
      rw [if_neg (by omega), if_neg (by simp [hu]), if_neg (by simp [hu])]
      simp [List.count_cons, ih]
    · simp only [filterLoop]
      have hcv : (v :: rest).count u = rest.count u := by
        simp [List.count_cons, hvu]
      split
      · rw [ih, hcv]
      · split
        · rw [ih, hcv]
        · split
          · split
            · rw [ih, hcv]
            · simp only [List.count_cons, ih]
          · simp only [List.count_cons, ih]

theorem count_filterUTXOs (s : Sweeper) (l : List UTXO) (minValue : Int)
    (u : UTXO) (hu : u.Confirmed = true) (hval : minValue ≤ u.ValueSats) :
    (s.filterUTXOs l minValue).count u = l.count u := by
  rw [Sweeper.filterUTXOs, count_filterLoop s minValue u hu hval,
    count_sortByValue]

/-- **C10.** `Index` performs no identity-based deduplication: when a UTXO
passes all the checks, indexing it twice succeeds both times, leaves both
entries in the indexed list, and for a confirmed UTXO both copies survive
the coin-selection filter. -/
theorem C10_index_no_dedup (s : Sweeper) (u : UTXO)
    (h : (s.Index u).1 = .ok ()) :
    ((s.Index u).2.Index u).1 = .ok () ∧
    ((s.Index u).2.Index u).2.indexedUTXOs = s.indexedUTXOs ++ [u, u] ∧
    (u.Confirmed = true → ∀ minValue, minValue ≤ u.ValueSats →
      2 ≤ (((s.Index u).2.Index u).2.filterUTXOs
        ((s.Index u).2.Index u).2.indexedUTXOs minValue).count u) := by
  obtain ⟨hv, hd, h3, h4⟩ := Index_ok_inversion h
  have h1 := Index_of_checks s u hv hd h3 h4
  rw [h1]
  have h2 := Index_of_checks { s with
      indexedUTXOs := s.indexedUTXOs ++ [u],
      kv := kvPut (utxoKey u) (.utxoVal u) s.kv } u hv hd h3 h4
  rw [h2]
  refine ⟨rfl, by simp, fun hu minValue hval => ?_⟩
  rw [count_filterUTXOs _ _ _ _ hu hval]
  simp [List.count_append, List.count_cons]

theorem C10_index_no_dedup_witness :
    (({ NewSweeper [] .BitcoinMainnet with testMode := true, minUSD := 0 }).Index
        ⟨[97], 0, 5000, [98], true⟩).1 = .ok () ∧
    ((({ NewSweeper [] .BitcoinMainnet with testMode := true, minUSD := 0 }).Index
        ⟨[97], 0, 5000, [98], true⟩).2.Index ⟨[97], 0, 5000, [98], true⟩).1
      = .ok () :=
  ⟨by rfl, (C10_index_no_dedup _ _ (by rfl)).1⟩

/-! ## C4: the greedy coin selector -/

/-- Total value carried by a list of UTXOs. -/
def inputsTotal (l : List UTXO) : Int := (l.map UTXO.ValueSats).sum

theorem mem_insertByValue {x u : UTXO} {l : List UTXO}
    (h : x ∈ insertByValue u l) : x = u ∨ x ∈ l := by
  induction l with
  | nil => simpa [insertByValue] using h
  | cons v rest ih =>
    simp only [insertByValue] at h
    split at h
    · rcases List.mem_cons.mp h with rfl | h2
      · exact Or.inl rfl
      · exact Or.inr h2
    · rcases List.mem_cons.mp h with rfl | h2
      · exact Or.inr (by simp)
      · rcases ih h2 with h3 | h3
        · exact Or.inl h3
        · exact Or.inr (by simp [h3])

theorem pairwise_insertByValue {u : UTXO} {l : List UTXO}
    (h : l.Pairwise (fun a b => a.ValueSats ≤ b.ValueSats)) :
    (insertByValue u l).Pairwise (fun a b => a.ValueSats ≤ b.ValueSats) := by
  induction l with
  | nil => simp [insertByValue]
  | cons v rest ih =>
    rw [List.pairwise_cons] at h
    simp only [insertByValue]
    split
    · rename_i hlt
      rw [List.pairwise_cons]
      refine ⟨?_, by rw [List.pairwise_cons]; exact h⟩
      intro x hx
      rcases List.mem_cons.mp hx with rfl | h2
      · omega
      · have := h.1 x h2
        omega
    · rename_i hge
      rw [List.pairwise_cons]
      refine ⟨?_, ih h.2⟩
      intro x hx
      rcases mem_insertByValue hx with rfl | h2
      · omega
      · exact h.1 x h2

theorem pairwise_sortByValue (l : List UTXO) :
    (sortByValue l).Pairwise (fun a b => a.ValueSats ≤ b.ValueSats) := by
  induction l with
  | nil => simp [sortByValue]
  | cons v rest ih => exact pairwise_insertByValue ih

theorem filterLoop_sublist (s : Sweeper) (minValue : Int) :
    ∀ (l : List UTXO) (unconf : Int),
      (filterLoop s minValue l unconf).Sublist l := by
  intro l
  induction l with
  | nil => intro unconf; simp [filterLoop]
  | cons v rest ih =>
    intro unconf
    simp only [filterLoop]
    split
    · exact (ih unconf).cons v
    · split
      · exact (ih unconf).cons v
      · split
        · split
          · exact (ih unconf).cons v
          · exact (ih (unconf + 1)).cons₂ v
        · exact (ih unconf).cons₂ v

theorem filterUTXOs_sorted (s : Sweeper) (utxos : List UTXO) (minValue : Int) :
    (s.filterUTXOs utxos minValue).Pairwise
      (fun a b => a.ValueSats ≤ b.ValueSats) :=
  (pairwise_sortByValue utxos).sublist
    (filterLoop_sublist s minValue (sortByValue utxos) 0)

theorem selectLoop_char (s : Sweeper) (target nOut : Int) (cands : List UTXO) :
    ∀ (l : List UTXO) (i : Nat), cands.drop i = l →
    (∀ sel tin fee,
        selectLoop s target nOut l (cands.take i) (inputsTotal (cands.take i))
          = .ok (sel, tin, fee) →
        ∃ k, i < k ∧ k ≤ cands.length ∧ sel = cands.take k ∧
          tin = inputsTotal (cands.take k) ∧
          fee = estimateTxVBytes (k : Int) nOut * s.feeRateSatsVB ∧
          tin ≥ target + fee ∧
          (∀ j, i < j → j < k →
            inputsTotal (cands.take j) <
              target + estimateTxVBytes (j : Int) nOut * s.feeRateSatsVB)) ∧
    (∀ e, selectLoop s target nOut l (cands.take i) (inputsTotal (cands.take i))
          = .error e →
        ∀ j, i < j → j ≤ cands.length →
          inputsTotal (cands.take j) <
            target + estimateTxVBytes (j : Int) nOut * s.feeRateSatsVB) := by
  intro l
  induction l with
  | nil =>
    intro i hdrop
    constructor
    · intro sel tin fee h
      exact absurd h (by simp [selectLoop])
    · intro e h j hij hjlen
      have hi : cands.length ≤ i := by
        by_contra hlt
        push_neg at hlt
        rw [List.drop_eq_nil_iff] at hdrop
        omega
      omega
  | cons c rest ih =>
    intro i hdrop
    have hilt : i < cands.length := by
      by_contra hge
      push_neg at hge
      rw [List.drop_eq_nil_of_le hge] at hdrop
      exact absurd hdrop (by simp)
    have hgetc : cands[i]? = some c := by
      have h0 := List.getElem?_drop cands i 0
      rw [hdrop] at h0
      simpa using h0.symm
    have htake1 : cands.take (i + 1) = cands.take i ++ [c] := by
      rw [List.take_succ, hgetc]
      rfl
    have hdrop1 : cands.drop (i + 1) = rest := by
      have h0 : (cands.drop i).drop 1 = cands.drop (i + 1) := List.drop_drop 1 i cands
      rw [hdrop] at h0
      simpa using h0.symm
    have hsum1 : inputsTotal (cands.take i) + c.ValueSats
        = inputsTotal (cands.take (i + 1)) := by
      rw [htake1]
      simp [inputsTotal]
    have hlength : (cands.take (i + 1)).length = i + 1 := by
      rw [List.length_take]
      omega
    obtain ⟨ihok, iherr⟩ := ih (i + 1) hdrop1
    constructor
    · intro sel tin fee h
      simp only [selectLoop] at h
      rw [← htake1, hsum1, hlength] at h
      by_cases hstop : inputsTotal (cands.take (i + 1))
          ≥ target + estimateTxVBytes ((i + 1 : Nat) : Int) nOut * s.feeRateSatsVB
      · rw [if_pos hstop] at h
        simp only [Except.ok.injEq, Prod.mk.injEq] at h
        obtain ⟨h3, h4, h5⟩ := h
        refine ⟨i + 1, by omega, by omega, h3.symm, h4.symm, h5.symm, ?_, ?_⟩
        · rw [h4.symm, h5.symm]
          exact hstop
        · intro j hj1 hj2
          omega
      · rw [if_neg hstop] at h
        obtain ⟨k, hk1, hk2, h3, h4, h5, h6, h7⟩ := ihok sel tin fee h
        refine ⟨k, by omega, hk2, h3, h4, h5, h6, ?_⟩
        intro j hj1 hj2
        by_cases hji : j = i + 1
        · subst hji
          exact lt_of_not_ge hstop
        · exact h7 j (by omega) hj2
    · intro e h j hj1 hj2
      simp only [selectLoop] at h
      rw [← htake1, hsum1, hlength] at h
      by_cases hstop : inputsTotal (cands.take (i + 1))
          ≥ target + estimateTxVBytes ((i + 1 : Nat) : Int) nOut * s.feeRateSatsVB
      · rw [if_pos hstop] at h
        exact absurd h (by simp)
      · rw [if_neg hstop] at h
        by_cases hji : j = i + 1
        · subst hji
          exact lt_of_not_ge hstop
        · exact iherr e h j (by omega) hj2

/-- **C4.** The selector walks the filtered candidates (sorted ascending by
value), appending one at a time; with `nIn` inputs selected it uses
`fee = (10 + nIn*58 + (nFixed+1)*31) * feeRate`, returns the first prefix
whose total meets `target + fee`, and errors if no prefix ever does. -/
theorem C4_selector_characterization (s : Sweeper) (target : Int)
    (utxos : List UTXO) (dust : Int) (nFix : Int) :
    (s.filterUTXOs utxos dust).Pairwise
      (fun a b => a.ValueSats ≤ b.ValueSats) ∧
    (∀ sel tin fee,
      s.selectUTXOsFor target utxos dust nFix = .ok (sel, tin, fee) →
      ∃ k, 1 ≤ k ∧ k ≤ (s.filterUTXOs utxos dust).length ∧
        sel = (s.filterUTXOs utxos dust).take k ∧
        tin = inputsTotal sel ∧
        fee = estimateTxVBytes (k : Int) (nFix + 1) * s.feeRateSatsVB ∧
        tin ≥ target + fee ∧
        (∀ j, 1 ≤ j → j < k →
          inputsTotal ((s.filterUTXOs utxos dust).take j) <
            target + estimateTxVBytes (j : Int) (nFix + 1) * s.feeRateSatsVB)) ∧
    (∀ e, s.selectUTXOsFor target utxos dust nFix = .error e →
      ∀ j, 1 ≤ j → j ≤ (s.filterUTXOs utxos dust).length →
        inputsTotal ((s.filterUTXOs utxos dust).take j) <
          target + estimateTxVBytes (j : Int) (nFix + 1) * s.feeRateSatsVB) := by
  refine ⟨filterUTXOs_sorted s utxos dust, ?_, ?_⟩
  · intro sel tin fee h
    rw [Sweeper.selectUTXOsFor] at h
    split at h
    · exact absurd h (by simp)
    · have hchar := (selectLoop_char s target (nFix + 1)
        (s.filterUTXOs utxos dust) (s.filterUTXOs utxos dust) 0 (by simp)).1
      simp only [List.take_zero] at hchar
      obtain ⟨k, hk1, hk2, h3, h4, h5, h6, h7⟩ :=
        hchar sel tin fee (by simpa [inputsTotal] using h)
      exact ⟨k, hk1, hk2, h3, by rw [h4, h3], h5, h6,
        fun j hj1 hj2 => h7 j hj1 hj2⟩
  · intro e h j hj1 hj2
    rw [Sweeper.selectUTXOsFor] at h
    split at h
    · rename_i hlen
      omega
    · have hchar := (selectLoop_char s target (nFix + 1)
        (s.filterUTXOs utxos dust) (s.filterUTXOs utxos dust) 0 (by simp)).2
      simp only [List.take_zero] at hchar
      exact hchar e (by simpa [inputsTotal] using h) j hj1 hj2

theorem C4_selector_characterization_witness :
    ∃ k, 1 ≤ k ∧
      k ≤ ((NewSweeper [] .BitcoinMainnet).filterUTXOs
            [⟨[97], 0, 10000, [98], true⟩] 600).length ∧
      [(⟨[97], 0, 10000, [98], true⟩ : UTXO)]
        = ((NewSweeper [] .BitcoinMainnet).filterUTXOs
            [⟨[97], 0, 10000, [98], true⟩] 600).take k ∧
      (10000 : Int) = inputsTotal [⟨[97], 0, 10000, [98], true⟩] ∧
      (650 : Int) = estimateTxVBytes (k : Int) (1 + 1)
          * (NewSweeper [] .BitcoinMainnet).feeRateSatsVB ∧
      (10000 : Int) ≥ 100 + 650 ∧
      (∀ j, 1 ≤ j → j < k →
        inputsTotal (((NewSweeper [] .BitcoinMainnet).filterUTXOs
            [⟨[97], 0, 10000, [98], true⟩] 600).take j) <
          100 + estimateTxVBytes (j : Int) (1 + 1)
            * (NewSweeper [] .BitcoinMainnet).feeRateSatsVB) :=
  (C4_selector_characterization (NewSweeper [] .BitcoinMainnet) 100
    [⟨[97], 0, 10000, [98], true⟩] 600 1).2.1
    [⟨[97], 0, 10000, [98], true⟩] 10000 650 (by rfl)

/-! ## C1/C3: fee reconciliation defects -/

/-- **C1.** Value conservation fails: in a successful single-change-output
plan the lone change output receives `changeDelta` on top of the change it
already carries, so the inputs minus outputs no longer equal the reported
fee (here the outputs even exceed the inputs). -/
theorem C1_conservation_code_bug :
    ∃ plan,
      (({ NewSweeper [] .BitcoinMainnet with
          testMode := true
          minUSD := 0
          indexedUTXOs := [⟨List.replicate 64 48, 0, 100000, [97], true⟩] }
        : Sweeper).Spend [⟨[99], 10000⟩]).1 = .ok plan ∧
      inputsTotal plan.Inputs - outputsTotal plan.Outputs ≠ plan.FeeSats :=
  ⟨_, by rfl, by decide⟩

/-- **C3.** With two change indices and a positive recomputed `changeDelta`
the planner performs no distribution at all: the plan keeps the original
chunk values and its reported fee is inconsistent with the outputs. -/
theorem C3_no_reconciliation_code_bug :
    ∃ plan,
      (({ NewSweeper [] .BitcoinMainnet with
          testMode := true
          minUSD := 0
          changeSplitParts := 2
          minChunkSats := 700
          indexedUTXOs := [⟨List.replicate 64 48, 0, 100000, [97], true⟩] }
        : Sweeper).Spend [⟨[99], 10000⟩]).1 = .ok plan ∧
      plan.ChangeIdxs.length = 2 ∧
      0 < inputsTotal plan.Inputs - 10000 - plan.FeeSats ∧
      inputsTotal plan.Inputs - outputsTotal plan.Outputs ≠ plan.FeeSats :=
  ⟨_, by rfl, by decide, by decide, by decide⟩

/-! ## C2: the dust floor on final outputs -/

/-- **C2 counterexample.** A fixed payment output is only checked for
positivity, not against the dust floor: a 1-satoshi output sails through
`Spend` and ends up in the successful plan below the effective dust floor
(600 here). -/
theorem C2_dust_floor_counterexample :
    ∃ plan,
      (({ NewSweeper [] .BitcoinMainnet with
          testMode := true
          minUSD := 0
          indexedUTXOs := [⟨List.replicate 64 48, 0, 100000, [97], true⟩] }
        : Sweeper).Spend [⟨[99], 1⟩]).1 = .ok plan ∧
      ∃ o ∈ plan.Outputs,
        o.ValueSats < buildDust { NewSweeper [] .BitcoinMainnet with
          testMode := true
          minUSD := 0
          indexedUTXOs := [⟨List.replicate 64 48, 0, 100000, [97], true⟩] } :=
  ⟨_, by rfl, by decide⟩

theorem buildWeightedGo_ge (total sum minChunk : Int) (last : Nat) :
    ∀ (ws : List WeightedAddr) (i : Nat) (acc : Int),
      ∀ o ∈ buildWeightedGo total sum minChunk last i acc ws,
        minChunk ≤ o.ValueSats := by
  intro ws
  induction ws with
  | nil => intro i acc o ho; simp [buildWeightedGo] at ho
  | cons w rest ih =>
    intro i acc o ho
    simp only [buildWeightedGo] at ho
    split at ho <;> split at ho
    · rename_i hge
      rcases List.mem_cons.mp ho with rfl | h2
      · exact hge
      · exact ih _ _ o h2
    · exact ih _ _ o ho
    · rename_i hge
      rcases List.mem_cons.mp ho with rfl | h2
      · exact hge
      · exact ih _ _ o h2
    · exact ih _ _ o ho

theorem buildWeightedOutputs_ge (total : Int) (ws : List WeightedAddr)
    (minChunk : Int) :
    ∀ o ∈ buildWeightedOutputs total ws minChunk, minChunk ≤ o.ValueSats := by
  intro o ho
  simp only [buildWeightedOutputs] at ho
  split at ho
  · simp at ho
  · split at ho
    · simp at ho
    · exact buildWeightedGo_ge total _ minChunk _ ws 0 0 o ho

theorem max64_one_of_pos {dust : Int} (h : 0 < dust) : max64 1 dust = dust := by
  rw [max64]
  split <;> omega

theorem bumpAt_get : ∀ (l : List TxOutput) (i : Nat) (d : Int) (o : TxOutput),
    l[i]? = some o →
    (bumpAt l i d)[i]? = some ⟨o.Address, o.ValueSats + d⟩ := by
  intro l
  induction l with
  | nil => intro i d o h; simp at h
  | cons x rest ih =>
    intro i d o h
    match i with
    | 0 =>
      simp only [List.getElem?_cons_zero, Option.some.injEq] at h
      subst h
      simp [bumpAt]
    | n + 1 =>
      simp only [List.getElem?_cons_succ] at h
      simpa [bumpAt] using ih n d o h

theorem buildDust_pos (s : Sweeper) : 0 < buildDust s := by
  rw [buildDust]
  split <;> omega

set_option maxHeartbeats 1000000 in
theorem changePlan_spec (s : Sweeper) (outputs : List TxOutput)
    (changeAddr : List Nat) (change dust : Int) (hdust : 0 < dust) :
    ∀ i ∈ (changePlan s outputs changeAddr change dust).2,
      ∃ o, (changePlan s outputs changeAddr change dust).1[i]? = some o ∧
        dust ≤ o.ValueSats := by
  intro i
  simp only [changePlan]
  split
  · rename_i hchange
    split
    · -- weighted allocation
      intro hi
      first | dsimp only at hi ⊢ | skip
      simp only [List.mem_map, List.mem_range] at hi
      obtain ⟨j, hj, rfl⟩ := hi
      rw [List.getElem?_append_right (by omega),
        Nat.add_sub_cancel_left,
        List.getElem?_eq_getElem hj]
      refine ⟨_, rfl, ?_⟩
      have := buildWeightedOutputs_ge change s.allocationByWeights
        (max64 1 dust) _ (List.getElem_mem hj)
      exact le_trans (le_of_eq (max64_one_of_pos hdust).symm) this
    · split
      · -- even-split branch (both part-count choices, then both
        -- surviving-chunk cases)
        split <;> [split; split] <;>
        first
        | -- no chunk survived: single fallback output
          (intro hi
           first | dsimp only at hi ⊢ | skip
           simp only [List.mem_singleton] at hi
           subst hi
           rw [List.getElem?_append_right (by omega)]
           simp only [Nat.sub_self, List.getElem?_cons_zero]
           exact ⟨_, rfl, le_of_lt hchange⟩)
        | -- surviving chunks, each filtered to be at least dust
          (intro hi
           first | dsimp only at hi ⊢ | skip
           simp only [List.mem_map, List.mem_range] at hi
           obtain ⟨j, hj, rfl⟩ := hi
           rw [List.getElem?_append_right (by omega),
             Nat.add_sub_cancel_left]
           rw [List.getElem?_map, List.getElem?_eq_getElem (by simpa using hj)]
           refine ⟨_, rfl, ?_⟩
           have hmem := List.getElem_mem (by simpa using hj)
           have := List.of_mem_filter hmem
           simpa using this)
      · -- plain single change output
        intro hi
        first | dsimp only at hi ⊢ | skip
        simp only [List.mem_singleton] at hi
        subst hi
        rw [List.getElem?_append_right (by omega)]
        simp only [Nat.sub_self, List.getElem?_cons_zero]
        exact ⟨_, rfl, le_of_lt hchange⟩
  · intro hi
    simp at hi

set_option maxHeartbeats 1000000 in
theorem change_outputs_ge_dust_build (s : Sweeper) (utxos : List UTXO)
    (outputs : List TxOutput) (changeAddr : List Nat) (plan : TransactionPlan)
    (h : (s.buildTransaction utxos outputs changeAddr).1 = .ok plan) :
    ∀ i ∈ plan.ChangeIdxs, ∃ o, plan.Outputs[i]? = some o ∧
      buildDust s ≤ o.ValueSats := by
  simp only [Sweeper.buildTransaction] at h
  split at h
  · simp at h
  · split at h
    · simp at h
    · rename_i selected totalIn estFee heq
      split at h
      · simp at h
      · rename_i hdelta
        split at h
        · simp at h
        · split at h
          · simp at h
          · split at h
            · simp at h
            · simp only [Except.ok.injEq] at h
              subst h
              intro i hi
              first | dsimp only at hi ⊢ | skip
              by_cases hlen : (changePlan s outputs changeAddr
                  (totalIn - outputsTotal outputs - estFee) (buildDust s)).2.length = 1
              · rw [if_pos hlen]
                obtain ⟨a, ha⟩ := List.length_eq_one.mp hlen
                rw [ha] at hi
                rcases List.mem_singleton.mp hi with rfl
                rw [ha]
                simp only [List.headD_cons]
                obtain ⟨o, ho, hge⟩ := changePlan_spec s outputs changeAddr
                  (totalIn - outputsTotal outputs - estFee) (buildDust s)
                  (buildDust_pos s) i (by rw [ha]; exact List.mem_singleton_self i)
                refine ⟨_, bumpAt_get _ i _ o ho, ?_⟩
                have hd0 : (0 : Int) ≤ totalIn - outputsTotal outputs -
                    estimateTxVBytes (selected.length : Int)
                      (((changePlan s outputs changeAddr
                        (totalIn - outputsTotal outputs - estFee)
                        (buildDust s)).1.length : Int)) * s.feeRateSatsVB := by
                  omega
                dsimp only
                omega
              · rw [if_neg hlen]
                exact changePlan_spec s outputs changeAddr
                  (totalIn - outputsTotal outputs - estFee) (buildDust s)
                  (buildDust_pos s) i hi

/-- **C2 (amended).** Every change output of a successful plan (from
`buildTransaction` directly or via `Spend`) meets the dust floor in force at
plan time; the original claim fails for fixed payment outputs, which are
only checked for positivity (see the counterexample). -/
theorem C2_dust_floor_amended :
    (∀ (s : Sweeper) utxos outputs changeAddr plan,
      (s.buildTransaction utxos outputs changeAddr).1 = .ok plan →
      ∀ i ∈ plan.ChangeIdxs, ∃ o, plan.Outputs[i]? = some o ∧
        buildDust s ≤ o.ValueSats) ∧
    (∀ (s : Sweeper) outputs plan,
      (s.Spend outputs).1 = .ok plan →
      ∀ i ∈ plan.ChangeIdxs, ∃ o, plan.Outputs[i]? = some o ∧
        buildDust s ≤ o.ValueSats) := by
  constructor
  · exact fun s u o c p h => change_outputs_ge_dust_build s u o c p h
  · intro s outputs plan h
    simp only [Sweeper.Spend] at h
    split at h
    · simp at h
    · split at h
      · simp at h
      · split at h
        · simp at h
        · exact change_outputs_ge_dust_build _ _ _ _ _ h

theorem C2_dust_floor_amended_witness :
    ∀ i ∈ (⟨[⟨List.replicate 64 48, 0, 100000, [97], true⟩],
        [⟨[99], 10000⟩, ⟨testChangeAddr, 178700⟩], 650,
        ⟨2, [⟨⟨List.replicate 32 0, 0⟩, [], [], 4294967295⟩],
         [⟨10000, testModeScript⟩, ⟨178700, testModeScript⟩], 0⟩,
        ⟨⟨2, [⟨⟨List.replicate 32 0, 0⟩, [], [], 4294967295⟩],
          [⟨10000, testModeScript⟩, ⟨178700, testModeScript⟩], 0⟩,
         [⟨some ⟨100000, testModeScript⟩⟩], [⟨⟩, ⟨⟩]⟩,
        [1]⟩ : TransactionPlan).ChangeIdxs,
      ∃ o, ((⟨[⟨List.replicate 64 48, 0, 100000, [97], true⟩],
        [⟨[99], 10000⟩, ⟨testChangeAddr, 178700⟩], 650,
        ⟨2, [⟨⟨List.replicate 32 0, 0⟩, [], [], 4294967295⟩],
         [⟨10000, testModeScript⟩, ⟨178700, testModeScript⟩], 0⟩,
        ⟨⟨2, [⟨⟨List.replicate 32 0, 0⟩, [], [], 4294967295⟩],
          [⟨10000, testModeScript⟩, ⟨178700, testModeScript⟩], 0⟩,
         [⟨some ⟨100000, testModeScript⟩⟩], [⟨⟩, ⟨⟩]⟩,
        [1]⟩ : TransactionPlan)).Outputs[i]? = some o ∧
        buildDust { NewSweeper [] .BitcoinMainnet with
          testMode := true
          minUSD := 0
          indexedUTXOs := [⟨List.replicate 64 48, 0, 100000, [97], true⟩] }
          ≤ o.ValueSats :=
  C2_dust_floor_amended.2
    { NewSweeper [] .BitcoinMainnet with
      testMode := true
      minUSD := 0
      indexedUTXOs := [⟨List.replicate 64 48, 0, 100000, [97], true⟩] }
    [⟨[99], 10000⟩] _ (by rfl)
